import Mathlib

/-!
Shallow embedding of `src/tools/hex-crypt/ihex_parser.c`: a streaming Intel
HEX record decoder.  Bytes are modelled as `Nat` with explicit `% 256`
(resp. `% 65536`) truncation where the C code stores into `uint8_t`
(resp. `uint16_t`).  The process-wide static variables become an explicit
`IhexState` record threaded through a per-byte step function, and the
registered callback becomes an `Option`-valued function parameter; the
sequence of callback invocations is returned as an explicit trace.
-/

/-- Decoded nibble sentinel: `INVALID_HEX_CHAR` is the character code of `x`. -/
def INVALID_HEX_CHAR : Nat := 120

/-- Payload buffer capacity, `IHEX_DATA_SIZE` in the C source. -/
def IHEX_DATA_SIZE : Nat := 255

/-- Embedding of `HexToDec`: character code to nibble value, with the
ranges exactly as in the source (digits, uppercase `A`-`F`, lowercase
`a`-`z`), and the sentinel 120 for everything else. -/
def HexToDec (h : Nat) : Nat :=
  if 48 ≤ h ∧ h ≤ 57 then h - 48
  else if 65 ≤ h ∧ h ≤ 70 then h - 65 + 10
  else if 97 ≤ h ∧ h ≤ 122 then h - 97 + 10
  else INVALID_HEX_CHAR

/-- The decoder session state: one field per static variable of the C file.
The state-machine position `state` uses the numeric values of the C
macros: 0 = START_CODE, 1/2 = BYTE_COUNT, 3-6 = ADDR, 7/8 = RECORD_TYPE,
9 = DATA, 10/11 = CHECKSUM.  The payload buffer `data` is a list of
exactly `IHEX_DATA_SIZE` byte values. -/
structure IhexState where
  state : Nat
  byte_count : Nat
  address_lo : Nat
  address_hi : Nat
  ex_segment_addr_mode : Bool
  record_type : Nat
  data : List Nat
  data_size_in_nibble : Nat
  temp_cs : Nat
  calc_cs : Nat
  calc_cs_toogle : Bool
  deriving DecidableEq, Repr

/-- The zero-initialised static state the C program starts in. -/
def initState : IhexState :=
  { state := 0, byte_count := 0, address_lo := 0, address_hi := 0,
    ex_segment_addr_mode := false, record_type := 0,
    data := List.replicate IHEX_DATA_SIZE 0, data_size_in_nibble := 0,
    temp_cs := 0, calc_cs := 0, calc_cs_toogle := false }

/-- Embedding of `ihex_reset_state`: clears only `state`, `address_lo`,
`address_hi` and `ex_segment_addr_mode`; every other static keeps its value. -/
def ihex_reset_state (s : IhexState) : IhexState :=
  { s with state := 0, address_lo := 0, address_hi := 0,
           ex_segment_addr_mode := false }

/-- Embedding of the `TRANSFORM_ADDR` macro, with the addressing mode made
an explicit argument. -/
def TRANSFORM_ADDR (ex : Bool) (addr_hi addr_lo : Nat) : Nat :=
  if ex then (addr_hi <<< 4) + addr_lo else (addr_hi <<< 16) ||| addr_lo

/-- One recorded consumer invocation: absolute address, the first `len`
bytes of the payload buffer (what the pointer/length pair delivers), and
the length. -/
structure CbCall where
  addr : Nat
  payload : List Nat
  len : Nat
  deriving DecidableEq, Repr

/-- Result of processing one non-NUL input byte: advance to a new state
(possibly having invoked the consumer), or abort the feed (`return false`
in C, with the static state left as it stands at that point). -/
inductive StepRes where
  | next (s : IhexState) (call : Option CbCall)
  | fail (s : IhexState)
  deriving DecidableEq, Repr

/-- The fields a `:` start code initialises for a fresh record. -/
def startRecord (s : IhexState) : IhexState :=
  { s with byte_count := 0, record_type := 0, address_lo := 0,
           data := List.replicate IHEX_DATA_SIZE 0,
           data_size_in_nibble := 0, state := s.state + 1 }

/-- The DATA-state write of one nibble: `data[b_index] = (data[b_index] << 4) | hc`
followed by `++data_size_in_nibble`, with `b_index` a `uint8_t` holding
`data_size_in_nibble >> 1`. -/
def writeData (s : IhexState) (hc : Nat) : IhexState :=
  { s with data := s.data.set ((s.data_size_in_nibble >>> 1) % 256)
             (((s.data.getD ((s.data_size_in_nibble >>> 1) % 256) 0 <<< 4) ||| hc) % 256),
           data_size_in_nibble := s.data_size_in_nibble + 1 }

/-- The post-validation side effect of an extended-address record: a
validated type-2 or type-4 record stores the big-endian 16-bit value of
the first two payload bytes into `address_hi` and sets the addressing
mode; every other record type leaves both untouched. -/
def applyAddrUpdate (s : IhexState) : IhexState :=
  if s.record_type = 2 then
    { s with address_hi := (s.data.getD 0 0 <<< 8) ||| s.data.getD 1 0,
             ex_segment_addr_mode := true }
  else if s.record_type = 4 then
    { s with address_hi := (s.data.getD 0 0 <<< 8) ||| s.data.getD 1 0,
             ex_segment_addr_mode := false }
  else s

/-- The `switch (state)` body of `ihex_parser` for one byte `c` whose
decoded nibble is `hc` (only read in the hex-digit states). -/
def ihex_switch (cb : Option (Nat → List Nat → Nat → Bool))
    (s : IhexState) (c hc : Nat) : StepRes :=
  if s.state = 0 then
    -- START_CODE_STATE
    if c = 13 ∨ c = 10 then .next s none
    else if c = 58 then .next (startRecord s) none
    else .fail s
  else if s.state = 1 ∨ s.state = 2 then
    -- BYTE_COUNT_0_STATE / BYTE_COUNT_1_STATE, stored into a uint8_t
    .next { s with byte_count := ((s.byte_count <<< 4) ||| hc) % 256,
                   state := s.state + 1 } none
  else if 3 ≤ s.state ∧ s.state ≤ 6 then
    -- ADDR_0..ADDR_3, stored into a uint16_t
    .next { s with address_lo := ((s.address_lo <<< 4) ||| hc) % 65536,
                   state := s.state + 1 } none
  else if s.state = 7 then
    -- RECORD_TYPE_0_STATE
    if hc ≠ 0 then .fail s else .next { s with state := s.state + 1 } none
  else if s.state = 8 then
    -- RECORD_TYPE_1_STATE; record_type is assigned before the byte-count
    -- checks, so it is set even on the over-capacity failure path
    if ¬ (hc ≤ 5 ∨ hc = 14) then .fail s
    else if s.byte_count = 0 then
      .next { s with record_type := hc, state := 10 } none
    else if s.byte_count > IHEX_DATA_SIZE then
      .fail { s with record_type := hc }
    else .next { s with record_type := hc, state := s.state + 1 } none
  else if s.state = 9 then
    -- DATA_STATE: write the nibble, then leave once the declared count is met
    if (writeData s hc).data_size_in_nibble >>> 1 ≥ (writeData s hc).byte_count
    then .next { writeData s hc with state := s.state + 1 } none
    else .next (writeData s hc) none
  else if s.state = 10 then
    -- CHECKSUM_0_STATE
    .next { s with state := s.state + 1 } none
  else if s.state = 11 then
    -- CHECKSUM_1_STATE
    if s.byte_count <<< 1 ≠ s.data_size_in_nibble then .fail s
    else if s.calc_cs ≠ 0 then .fail s
    else
      if s.record_type = 0 then
        match cb with
        | some f =>
          if f (TRANSFORM_ADDR (applyAddrUpdate s).ex_segment_addr_mode
                  (applyAddrUpdate s).address_hi (applyAddrUpdate s).address_lo)
               ((applyAddrUpdate s).data.take ((applyAddrUpdate s).data_size_in_nibble >>> 1))
               ((applyAddrUpdate s).data_size_in_nibble >>> 1)
          then .next { applyAddrUpdate s with state := 0 }
                 (some ⟨TRANSFORM_ADDR (applyAddrUpdate s).ex_segment_addr_mode
                          (applyAddrUpdate s).address_hi (applyAddrUpdate s).address_lo,
                        (applyAddrUpdate s).data.take ((applyAddrUpdate s).data_size_in_nibble >>> 1),
                        (applyAddrUpdate s).data_size_in_nibble >>> 1⟩)
          else .fail (applyAddrUpdate s)
        | none => .next { applyAddrUpdate s with state := 0 } none
      else .next { applyAddrUpdate s with state := 0 } none
  else .fail s

/-- The checksum pre-block reset performed while in the START state. -/
def csReset (s : IhexState) : IhexState :=
  if s.state = 0 then { s with calc_cs := 0, calc_cs_toogle := false } else s

/-- The checksum pre-block accumulation performed in the hex-digit states:
buffer the high nibble, or fold the completed byte into `calc_cs` (a
`uint8_t`), toggling each time. -/
def csAccum (s : IhexState) (hc : Nat) : IhexState :=
  if s.calc_cs_toogle = false then
    { s with temp_cs := hc, calc_cs_toogle := true }
  else
    { s with calc_cs := (s.calc_cs + ((s.temp_cs <<< 4) ||| hc)) % 256,
             calc_cs_toogle := false }

/-- One iteration of the `for` loop of `ihex_parser` on a non-NUL byte:
the checksum pre-block (reset in START, nibble accumulation in the hex
states, with immediate failure on a non-hex character), then the switch.
In the C code `hc` is left uninitialised when `state` is outside the hex
range; it is never read there, and we pass 0. -/
def ihex_step (cb : Option (Nat → List Nat → Nat → Bool))
    (s0 : IhexState) (c : Nat) : StepRes :=
  if 1 ≤ (csReset s0).state ∧ (csReset s0).state ≤ 11 then
    if HexToDec c = INVALID_HEX_CHAR then .fail (csReset s0)
    else ihex_switch cb (csAccum (csReset s0) (HexToDec c)) c (HexToDec c)
  else ihex_switch cb (csReset s0) c 0

/-- Outcome of a whole feed call: the C boolean result, the static state
when the call returns, and the trace of consumer invocations made. -/
structure FeedOut where
  result : Bool
  st : IhexState
  calls : List CbCall
  deriving DecidableEq, Repr

/-- Embedding of `ihex_parser` (the feed entry point): process the bytes
in order; a NUL byte returns true immediately; a step failure returns
false immediately.  (The name avoids a suffix unavailable here.) -/
def ihex_parse (cb : Option (Nat → List Nat → Nat → Bool))
    (s : IhexState) : List Nat → FeedOut
  | [] => ⟨true, s, []⟩
  | c :: rest =>
    if c = 0 then ⟨true, s, []⟩
    else
      match ihex_step cb s c with
      | .fail s' => ⟨false, s', []⟩
      | .next s' call =>
        let out := ihex_parse cb s' rest
        ⟨out.result, out.st, call.toList ++ out.calls⟩

/-- A consumer that accepts every delivered record. -/
def cbTrue : Option (Nat → List Nat → Nat → Bool) := some fun _ _ _ => true

/-- Character codes of the record `:020000041000EA`: a type-4 (extended
linear address) record with payload bytes `0x10 0x00`. -/
def recT4 : List Nat := [58, 48, 50, 48, 48, 48, 48, 48, 52, 49, 48, 48, 48, 69, 65]

/-- Character codes of the record `:020000021000EC`: a type-2 (extended
segment address) record with payload bytes `0x10 0x00`. -/
def recT2 : List Nat := [58, 48, 50, 48, 48, 48, 48, 48, 50, 49, 48, 48, 48, 69, 67]

/-- Character codes of the record `:01002000558A`: a type-0 data record,
address field `0x0020`, single payload byte `0x55`. -/
def recD : List Nat := [58, 48, 49, 48, 48, 50, 48, 48, 48, 53, 53, 56, 65]

/-- The record `recD` with its payload byte flipped from `0x55` to `0x56`
and everything else (checksum included) unchanged. -/
def recDflip : List Nat := [58, 48, 49, 48, 48, 50, 48, 48, 48, 53, 54, 56, 65]

/-- Character codes of the EOF record `:00000001FF`. -/
def recEOF : List Nat := [58, 48, 48, 48, 48, 48, 48, 48, 49, 70, 70]

/-- Uppercase hex character code of a nibble value below 16. -/
def hexDigit (n : Nat) : Nat := if n < 10 then 48 + n else 55 + n

/-- Two-character big-endian hex encoding of a byte value. -/
def encByte (b : Nat) : List Nat := [hexDigit (b / 16), hexDigit (b % 16)]

/-- Hex encoding of a byte sequence. -/
def encBytes (bs : List Nat) : List Nat := (bs.map encByte).flatten

/-- A full record line: the start code `:` followed by the hex encoding
of the record's bytes (count, address, type, payload, checksum). -/
def encRecord (bs : List Nat) : List Nat := 58 :: encBytes bs

/-- The inductive invariant of the state machine that the safety claims
rest on: the declared byte count fits a byte; the nibble counter is still
zero while the header of a record is being parsed; in the DATA state the
next write index `data_size_in_nibble >>> 1` is below `byte_count`; and in
the CHECKSUM states the payload is complete, `data_size_in_nibble =
2 * byte_count`. -/
def IhexInv (s : IhexState) : Prop :=
  s.byte_count < 256 ∧
  (1 ≤ s.state ∧ s.state ≤ 8 → s.data_size_in_nibble = 0) ∧
  (s.state = 9 → s.data_size_in_nibble >>> 1 < s.byte_count) ∧
  ((s.state = 10 ∨ s.state = 11) → s.data_size_in_nibble = 2 * s.byte_count)

/-- The session states the program can actually be in: the zero-initialised
start state, and everything reachable from it through feed steps (successful
or failing, with any consumer) and resets. -/
inductive Reachable : IhexState → Prop where
  | init : Reachable initState
  | reset {s} : Reachable s → Reachable (ihex_reset_state s)
  | step {s s' cb c call} : Reachable s → ihex_step cb s c = .next s' call →
      Reachable s'
  | step_fail {s s' cb c} : Reachable s → ihex_step cb s c = .fail s' →
      Reachable s'

/-- The session state a step result leaves behind (the statics persist in
C whether the loop continues or returns false). -/
def stepState : StepRes → IhexState
  | .next s _ => s
  | .fail s => s

/-- Two session states that the feed cannot tell apart: same machine
position, same sticky addressing state, and, once inside a record, the
same per-record fields, with `temp_cs` only required to match while a
buffered high nibble is pending.  In START all per-record fields are
about to be overwritten, so they may differ. -/
def AgreeStates (s t : IhexState) : Prop :=
  s.state = t.state ∧ s.address_hi = t.address_hi ∧
  s.ex_segment_addr_mode = t.ex_segment_addr_mode ∧
  (s.state ≠ 0 →
    (s.byte_count = t.byte_count ∧ s.address_lo = t.address_lo ∧
     s.record_type = t.record_type ∧ s.data = t.data ∧
     s.data_size_in_nibble = t.data_size_in_nibble ∧
     s.calc_cs = t.calc_cs ∧ s.calc_cs_toogle = t.calc_cs_toogle ∧
     (s.calc_cs_toogle = true → s.temp_cs = t.temp_cs)))

/-- Lifting of `AgreeStates` to step results: both abort, or both advance
to indistinguishable states with the same consumer invocation. -/
def ResAgree : StepRes → StepRes → Prop
  | .next s cs, .next t ct => AgreeStates s t ∧ cs = ct
  | .fail _, .fail _ => True
  | _, _ => False

/-! Theorems.  First, projection lemmas for the helper update functions:
which session fields each one touches and which it leaves alone. -/

@[simp] theorem csReset_state (s : IhexState) : (csReset s).state = s.state := by
  unfold csReset; split <;> rfl

@[simp] theorem csReset_byte_count (s : IhexState) :
    (csReset s).byte_count = s.byte_count := by unfold csReset; split <;> rfl

@[simp] theorem csReset_nibble (s : IhexState) :
    (csReset s).data_size_in_nibble = s.data_size_in_nibble := by
  unfold csReset; split <;> rfl

@[simp] theorem csReset_record_type (s : IhexState) :
    (csReset s).record_type = s.record_type := by unfold csReset; split <;> rfl

@[simp] theorem csReset_data (s : IhexState) : (csReset s).data = s.data := by
  unfold csReset; split <;> rfl

@[simp] theorem csReset_address_hi (s : IhexState) :
    (csReset s).address_hi = s.address_hi := by unfold csReset; split <;> rfl

@[simp] theorem csReset_address_lo (s : IhexState) :
    (csReset s).address_lo = s.address_lo := by unfold csReset; split <;> rfl

@[simp] theorem csReset_ex_mode (s : IhexState) :
    (csReset s).ex_segment_addr_mode = s.ex_segment_addr_mode := by
  unfold csReset; split <;> rfl

@[simp] theorem csAccum_state (s : IhexState) (hc : Nat) :
    (csAccum s hc).state = s.state := by unfold csAccum; split <;> rfl

@[simp] theorem csAccum_byte_count (s : IhexState) (hc : Nat) :
    (csAccum s hc).byte_count = s.byte_count := by unfold csAccum; split <;> rfl

@[simp] theorem csAccum_nibble (s : IhexState) (hc : Nat) :
    (csAccum s hc).data_size_in_nibble = s.data_size_in_nibble := by
  unfold csAccum; split <;> rfl

@[simp] theorem csAccum_record_type (s : IhexState) (hc : Nat) :
    (csAccum s hc).record_type = s.record_type := by unfold csAccum; split <;> rfl

@[simp] theorem csAccum_data (s : IhexState) (hc : Nat) :
    (csAccum s hc).data = s.data := by unfold csAccum; split <;> rfl

@[simp] theorem csAccum_address_hi (s : IhexState) (hc : Nat) :
    (csAccum s hc).address_hi = s.address_hi := by unfold csAccum; split <;> rfl

@[simp] theorem csAccum_address_lo (s : IhexState) (hc : Nat) :
    (csAccum s hc).address_lo = s.address_lo := by unfold csAccum; split <;> rfl

@[simp] theorem csAccum_ex_mode (s : IhexState) (hc : Nat) :
    (csAccum s hc).ex_segment_addr_mode = s.ex_segment_addr_mode := by
  unfold csAccum; split <;> rfl

@[simp] theorem writeData_state (s : IhexState) (hc : Nat) :
    (writeData s hc).state = s.state := rfl

@[simp] theorem writeData_byte_count (s : IhexState) (hc : Nat) :
    (writeData s hc).byte_count = s.byte_count := rfl

@[simp] theorem writeData_nibble (s : IhexState) (hc : Nat) :
    (writeData s hc).data_size_in_nibble = s.data_size_in_nibble + 1 := rfl

@[simp] theorem writeData_record_type (s : IhexState) (hc : Nat) :
    (writeData s hc).record_type = s.record_type := rfl

@[simp] theorem writeData_address_hi (s : IhexState) (hc : Nat) :
    (writeData s hc).address_hi = s.address_hi := rfl

@[simp] theorem writeData_address_lo (s : IhexState) (hc : Nat) :
    (writeData s hc).address_lo = s.address_lo := rfl

@[simp] theorem writeData_ex_mode (s : IhexState) (hc : Nat) :
    (writeData s hc).ex_segment_addr_mode = s.ex_segment_addr_mode := rfl

@[simp] theorem applyAddrUpdate_state (s : IhexState) :
    (applyAddrUpdate s).state = s.state := by
  unfold applyAddrUpdate; split_ifs <;> rfl

@[simp] theorem applyAddrUpdate_byte_count (s : IhexState) :
    (applyAddrUpdate s).byte_count = s.byte_count := by
  unfold applyAddrUpdate; split_ifs <;> rfl

@[simp] theorem applyAddrUpdate_nibble (s : IhexState) :
    (applyAddrUpdate s).data_size_in_nibble = s.data_size_in_nibble := by
  unfold applyAddrUpdate; split_ifs <;> rfl

@[simp] theorem applyAddrUpdate_record_type (s : IhexState) :
    (applyAddrUpdate s).record_type = s.record_type := by
  unfold applyAddrUpdate; split_ifs <;> rfl

@[simp] theorem applyAddrUpdate_data (s : IhexState) :
    (applyAddrUpdate s).data = s.data := by
  unfold applyAddrUpdate; split_ifs <;> rfl

@[simp] theorem applyAddrUpdate_address_lo (s : IhexState) :
    (applyAddrUpdate s).address_lo = s.address_lo := by
  unfold applyAddrUpdate; split_ifs <;> rfl

@[simp] theorem startRecord_state (s : IhexState) :
    (startRecord s).state = s.state + 1 := rfl

@[simp] theorem startRecord_byte_count (s : IhexState) :
    (startRecord s).byte_count = 0 := rfl

@[simp] theorem startRecord_nibble (s : IhexState) :
    (startRecord s).data_size_in_nibble = 0 := rfl

@[simp] theorem startRecord_record_type (s : IhexState) :
    (startRecord s).record_type = 0 := rfl

@[simp] theorem startRecord_address_hi (s : IhexState) :
    (startRecord s).address_hi = s.address_hi := rfl

@[simp] theorem startRecord_ex_mode (s : IhexState) :
    (startRecord s).ex_segment_addr_mode = s.ex_segment_addr_mode := rfl

/-- The invariant `IhexInv` holds of the zero-initialised state. -/
theorem ihexInv_init : IhexInv initState := by
  refine ⟨by decide, ?_, ?_, ?_⟩ <;> intro h <;> simp [initState] at h <;> omega

/-- The invariant `IhexInv` is preserved by `ihex_reset_state`. -/
theorem ihexInv_reset (s : IhexState) (h : IhexInv s) :
    IhexInv (ihex_reset_state s) := by
  obtain ⟨h1, h2, h3, h4⟩ := h
  refine ⟨h1, ?_, ?_, ?_⟩ <;> intro h <;> simp [ihex_reset_state] at h <;> omega

/-- In a non-START state the checksum pre-block reset is the identity. -/
theorem csReset_of_ne (s : IhexState) (h : s.state ≠ 0) : csReset s = s := by
  unfold csReset; simp [h]

/-- Returning to START preserves the invariant for any byte count that
fits a byte. -/
theorem ihexInv_gotoStart (u : IhexState) (hu : u.byte_count < 256) :
    IhexInv { u with state := 0 } := by
  refine ⟨hu, ?_, ?_, ?_⟩ <;> intro hh <;> simp at hh

/-- The CHECKSUM_1 switch step preserves the invariant. -/
theorem inv_switch11 (cb : Option (Nat → List Nat → Nat → Bool))
    (t : IhexState) (c hc : Nat) (hst : t.state = 11)
    (ht1 : t.byte_count < 256)
    (ht4 : t.data_size_in_nibble = 2 * t.byte_count) :
    IhexInv (stepState (ihex_switch cb t c hc)) := by
  have hInvT : IhexInv t :=
    ⟨ht1, fun hh => absurd hh (by omega), fun hh => absurd hh (by omega),
     fun _ => ht4⟩
  have happ : IhexInv (applyAddrUpdate t) := by
    refine ⟨by simpa using ht1, ?_, ?_, ?_⟩ <;> intro hh
    · simp [hst] at hh
    · simp [hst] at hh
    · simpa using ht4
  unfold ihex_switch
  rw [if_neg (show ¬ t.state = 0 by omega),
      if_neg (show ¬ (t.state = 1 ∨ t.state = 2) by omega),
      if_neg (show ¬ (3 ≤ t.state ∧ t.state ≤ 6) by omega),
      if_neg (show ¬ t.state = 7 by omega),
      if_neg (show ¬ t.state = 8 by omega),
      if_neg (show ¬ t.state = 9 by omega),
      if_neg (show ¬ t.state = 10 by omega),
      if_pos hst]
  split_ifs with hb hcs hrt
  · exact hInvT
  · exact hInvT
  · cases cb with
    | none => exact ihexInv_gotoStart _ (by simpa using ht1)
    | some f =>
      dsimp only
      split_ifs with hf
      · exact ihexInv_gotoStart _ (by simpa using ht1)
      · exact happ
  · exact ihexInv_gotoStart _ (by simpa using ht1)

/-- The invariant `IhexInv` is preserved by every feed step, whether it
advances or aborts. -/
theorem ihexInv_step (cb : Option (Nat → List Nat → Nat → Bool))
    (s : IhexState) (c : Nat) (h : IhexInv s) :
    IhexInv (stepState (ihex_step cb s c)) := by
  obtain ⟨h1, h2, h3, h4⟩ := h
  have hcases : s.state = 0 ∨ s.state = 1 ∨ s.state = 2 ∨ s.state = 3 ∨
      s.state = 4 ∨ s.state = 5 ∨ s.state = 6 ∨ s.state = 7 ∨ s.state = 8 ∨
      s.state = 9 ∨ s.state = 10 ∨ s.state = 11 ∨ 12 ≤ s.state := by omega
  rcases hcases with hst|hst|hst|hst|hst|hst|hst|hst|hst|hst|hst|hst|hst
  · -- START state
    unfold ihex_step ihex_switch
    simp only [csReset_state, hst]
    norm_num
    split_ifs <;>
      refine ⟨?_, ?_, ?_, ?_⟩ <;>
        simp_all [stepState, IhexInv] <;> omega
  · have hne : s.state ≠ 0 := by omega
    unfold ihex_step
    rw [csReset_of_ne s hne, if_pos (show 1 ≤ s.state ∧ s.state ≤ 11 by omega)]
    by_cases hhex : HexToDec c = INVALID_HEX_CHAR
    · simpa [stepState, hhex] using ⟨h1, h2, h3, h4⟩
    · rw [if_neg hhex]
      unfold ihex_switch
      simp only [csAccum_state, hst]
      norm_num
      rcases cb with _ | f <;>
        ((try split_ifs) <;>
          refine ⟨?_, ?_, ?_, ?_⟩ <;>
            (try simp_all [stepState, IHEX_DATA_SIZE, Nat.shiftRight_one]) <;>
              (try omega))
  · have hne : s.state ≠ 0 := by omega
    unfold ihex_step
    rw [csReset_of_ne s hne, if_pos (show 1 ≤ s.state ∧ s.state ≤ 11 by omega)]
    by_cases hhex : HexToDec c = INVALID_HEX_CHAR
    · simpa [stepState, hhex] using ⟨h1, h2, h3, h4⟩
    · rw [if_neg hhex]
      unfold ihex_switch
      simp only [csAccum_state, hst]
      norm_num
      rcases cb with _ | f <;>
        ((try split_ifs) <;>
          refine ⟨?_, ?_, ?_, ?_⟩ <;>
            (try simp_all [stepState, IHEX_DATA_SIZE, Nat.shiftRight_one]) <;>
              (try omega))
  · have hne : s.state ≠ 0 := by omega
    unfold ihex_step
    rw [csReset_of_ne s hne, if_pos (show 1 ≤ s.state ∧ s.state ≤ 11 by omega)]
    by_cases hhex : HexToDec c = INVALID_HEX_CHAR
    · simpa [stepState, hhex] using ⟨h1, h2, h3, h4⟩
    · rw [if_neg hhex]
      unfold ihex_switch
      simp only [csAccum_state, hst]
      norm_num
      rcases cb with _ | f <;>
        ((try split_ifs) <;>
          refine ⟨?_, ?_, ?_, ?_⟩ <;>
            (try simp_all [stepState, IHEX_DATA_SIZE, Nat.shiftRight_one]) <;>
              (try omega))
  · have hne : s.state ≠ 0 := by omega
    unfold ihex_step
    rw [csReset_of_ne s hne, if_pos (show 1 ≤ s.state ∧ s.state ≤ 11 by omega)]
    by_cases hhex : HexToDec c = INVALID_HEX_CHAR
    · simpa [stepState, hhex] using ⟨h1, h2, h3, h4⟩
    · rw [if_neg hhex]
      unfold ihex_switch
      simp only [csAccum_state, hst]
      norm_num
      rcases cb with _ | f <;>
        ((try split_ifs) <;>
          refine ⟨?_, ?_, ?_, ?_⟩ <;>
            (try simp_all [stepState, IHEX_DATA_SIZE, Nat.shiftRight_one]) <;>
              (try omega))
  · have hne : s.state ≠ 0 := by omega
    unfold ihex_step
    rw [csReset_of_ne s hne, if_pos (show 1 ≤ s.state ∧ s.state ≤ 11 by omega)]
    by_cases hhex : HexToDec c = INVALID_HEX_CHAR
    · simpa [stepState, hhex] using ⟨h1, h2, h3, h4⟩
    · rw [if_neg hhex]
      unfold ihex_switch
      simp only [csAccum_state, hst]
      norm_num
      rcases cb with _ | f <;>
        ((try split_ifs) <;>
          refine ⟨?_, ?_, ?_, ?_⟩ <;>
            (try simp_all [stepState, IHEX_DATA_SIZE, Nat.shiftRight_one]) <;>
              (try omega))
  · have hne : s.state ≠ 0 := by omega
    unfold ihex_step
    rw [csReset_of_ne s hne, if_pos (show 1 ≤ s.state ∧ s.state ≤ 11 by omega)]
    by_cases hhex : HexToDec c = INVALID_HEX_CHAR
    · simpa [stepState, hhex] using ⟨h1, h2, h3, h4⟩
    · rw [if_neg hhex]
      unfold ihex_switch
      simp only [csAccum_state, hst]
      norm_num
      rcases cb with _ | f <;>
        ((try split_ifs) <;>
          refine ⟨?_, ?_, ?_, ?_⟩ <;>
            (try simp_all [stepState, IHEX_DATA_SIZE, Nat.shiftRight_one]) <;>
              (try omega))
  · have hne : s.state ≠ 0 := by omega
    unfold ihex_step
    rw [csReset_of_ne s hne, if_pos (show 1 ≤ s.state ∧ s.state ≤ 11 by omega)]
    by_cases hhex : HexToDec c = INVALID_HEX_CHAR
    · simpa [stepState, hhex] using ⟨h1, h2, h3, h4⟩
    · rw [if_neg hhex]
      unfold ihex_switch
      simp only [csAccum_state, hst]
      norm_num
      rcases cb with _ | f <;>
        ((try split_ifs) <;>
          refine ⟨?_, ?_, ?_, ?_⟩ <;>
            (try simp_all [stepState, IHEX_DATA_SIZE, Nat.shiftRight_one]) <;>
              (try omega))
  · have hne : s.state ≠ 0 := by omega
    unfold ihex_step
    rw [csReset_of_ne s hne, if_pos (show 1 ≤ s.state ∧ s.state ≤ 11 by omega)]
    by_cases hhex : HexToDec c = INVALID_HEX_CHAR
    · simpa [stepState, hhex] using ⟨h1, h2, h3, h4⟩
    · rw [if_neg hhex]
      unfold ihex_switch
      simp only [csAccum_state, hst]
      norm_num
      rcases cb with _ | f <;>
        ((try split_ifs) <;>
          refine ⟨?_, ?_, ?_, ?_⟩ <;>
            (try simp_all [stepState, IHEX_DATA_SIZE, Nat.shiftRight_one]) <;>
              (try omega))
  · have hne : s.state ≠ 0 := by omega
    unfold ihex_step
    rw [csReset_of_ne s hne, if_pos (show 1 ≤ s.state ∧ s.state ≤ 11 by omega)]
    by_cases hhex : HexToDec c = INVALID_HEX_CHAR
    · simpa [stepState, hhex] using ⟨h1, h2, h3, h4⟩
    · rw [if_neg hhex]
      unfold ihex_switch
      simp only [csAccum_state, hst]
      norm_num
      rcases cb with _ | f <;>
        ((try split_ifs) <;>
          refine ⟨?_, ?_, ?_, ?_⟩ <;>
            (try simp_all [stepState, IHEX_DATA_SIZE, Nat.shiftRight_one]) <;>
              (try omega))
  · have hne : s.state ≠ 0 := by omega
    unfold ihex_step
    rw [csReset_of_ne s hne, if_pos (show 1 ≤ s.state ∧ s.state ≤ 11 by omega)]
    by_cases hhex : HexToDec c = INVALID_HEX_CHAR
    · simpa [stepState, hhex] using ⟨h1, h2, h3, h4⟩
    · rw [if_neg hhex]
      unfold ihex_switch
      simp only [csAccum_state, hst]
      norm_num
      rcases cb with _ | f <;>
        ((try split_ifs) <;>
          refine ⟨?_, ?_, ?_, ?_⟩ <;>
            (try simp_all [stepState, IHEX_DATA_SIZE, Nat.shiftRight_one]) <;>
              (try omega))
  · -- CHECKSUM_1 state
    have hne : s.state ≠ 0 := by omega
    unfold ihex_step
    rw [csReset_of_ne s hne, if_pos (show 1 ≤ s.state ∧ s.state ≤ 11 by omega)]
    by_cases hhex : HexToDec c = INVALID_HEX_CHAR
    · simpa [stepState, hhex] using ⟨h1, h2, h3, h4⟩
    · rw [if_neg hhex]
      exact inv_switch11 cb (csAccum s (HexToDec c)) c (HexToDec c)
        (by simp [hst]) (by simpa using h1) (by simpa using h4 (Or.inr hst))
  · have hne : s.state ≠ 0 := by omega
    unfold ihex_step
    rw [csReset_of_ne s hne,
        if_neg (show ¬ (1 ≤ s.state ∧ s.state ≤ 11) by omega)]
    unfold ihex_switch
    rw [if_neg hne, if_neg (by omega), if_neg (by omega), if_neg (by omega),
        if_neg (by omega), if_neg (by omega), if_neg (by omega),
        if_neg (by omega)]
    exact ⟨h1, h2, h3, h4⟩

/-- Feeding any buffer that contains a NUL byte behaves exactly like
feeding the part before the NUL: same result, same final state, same
consumer calls. -/
theorem ihex_parse_nul (cb : Option (Nat → List Nat → Nat → Bool))
    (s : IhexState) (pre suf : List Nat) :
    ihex_parse cb s (pre ++ 0 :: suf) = ihex_parse cb s pre := by
  induction pre generalizing s with
  | nil => simp [ihex_parse]
  | cons c rest ih =>
    simp only [List.cons_append, ihex_parse]
    by_cases hc : c = 0
    · simp [hc]
    · simp only [hc, if_false]
      cases ihex_step cb s c with
      | fail s' => rfl
      | next s' call => simp [ih]

/-- Claim C3: a NUL byte anywhere in the input is a successful
end-of-input signal: the feed call is equal (result, final state and
consumer calls) to the feed of the bytes before the NUL, so nothing after
the NUL is processed and nothing after it changes the session state.
Concretely, feeding the characters of `:0000010`, a NUL, then `1FF`
returns true and equals feeding `:0000010` alone. -/
theorem claim_C3_nul_terminates :
    (∀ (cb : Option (Nat → List Nat → Nat → Bool)) (s : IhexState)
       (pre suf : List Nat),
       ihex_parse cb s (pre ++ 0 :: suf) = ihex_parse cb s pre) ∧
    ihex_parse cbTrue initState
        ([58, 48, 48, 48, 48, 48, 49, 48] ++ 0 :: [49, 70, 70]) =
      ihex_parse cbTrue initState [58, 48, 48, 48, 48, 48, 49, 48] ∧
    (ihex_parse cbTrue initState
        ([58, 48, 48, 48, 48, 48, 49, 48] ++ 0 :: [49, 70, 70])).result = true := by
  refine ⟨ihex_parse_nul, ihex_parse_nul cbTrue initState _ _, ?_⟩
  rw [ihex_parse_nul]
  decide

/-- Claim C1, counterexample: after the type-4 record with payload
`0x10 0x00` (`recT4`), the data record at address field `0x0020` invokes
the consumer with absolute address `0x10000020`, not `0x00100020` as
claimed: `address_hi` becomes `0x1000` and is shifted left by 16. -/
theorem claim_C1_cex :
    (ihex_parse cbTrue initState (recT4 ++ recD)).calls.map CbCall.addr =
      [268435488] ∧ (268435488 : Nat) ≠ 1048608 := by decide

/-- Claim C1, amended: after the type-4 record with payload `0x10 0x00`,
the data record at address field `0x0020` with payload byte `0x55` invokes
the consumer once with absolute address `0x10000020 = (0x1000 <<< 16) ||| 0x20`;
after the type-2 record with the same payload it invokes the consumer once
with absolute address `0x00010020 = (0x1000 <<< 4) + 0x20`. -/
theorem claim_C1_amended :
    (ihex_parse cbTrue initState (recT4 ++ recD)).calls =
      [⟨268435488, [85], 1⟩] ∧
    (ihex_parse cbTrue initState (recT2 ++ recD)).calls =
      [⟨65568, [85], 1⟩] := by decide

/-- Claim C4, counterexample: the character `g` (code 103) is in the
lowercase range but decodes to 16, outside 10-15; and the NUL character
(code 0) is outside every hex range yet feeding it in a hex-expecting
state returns true, not false. -/
theorem claim_C4_cex :
    HexToDec 103 = 16 ∧ ¬ HexToDec 103 ≤ 15 ∧
    (ihex_parse cbTrue (ihex_parse cbTrue initState [58]).st [0]).result
      = true := by decide

/-- Claim C4, amended: `0`-`9` decode to 0-9 and `A`-`F` to 10-15 as
claimed, but `a`-`z` decode to `c - 97 + 10`, i.e. 10-35, so `g`-`z` are
accepted with out-of-range nibble values rather than rejected; any
character outside all three ranges other than NUL makes the feed return
false immediately in every hex-expecting state (NUL instead ends the
input successfully). -/
theorem claim_C4_amended :
    (∀ c, 48 ≤ c → c ≤ 57 → HexToDec c = c - 48) ∧
    (∀ c, 65 ≤ c → c ≤ 70 → HexToDec c = c - 65 + 10) ∧
    (∀ c, 97 ≤ c → c ≤ 122 → HexToDec c = c - 97 + 10) ∧
    (∀ (cb : Option (Nat → List Nat → Nat → Bool)) (s : IhexState)
       (c : Nat) (rest : List Nat),
       1 ≤ s.state → s.state ≤ 11 →
       ¬ (48 ≤ c ∧ c ≤ 57) → ¬ (65 ≤ c ∧ c ≤ 70) → ¬ (97 ≤ c ∧ c ≤ 122) →
       c ≠ 0 →
       (ihex_parse cb s (c :: rest)).result = false) := by
  refine ⟨?_, ?_, ?_, ?_⟩
  · intro c h1 h2; simp [HexToDec, h1, h2]
  · intro c h1 h2
    have hd : ¬ (48 ≤ c ∧ c ≤ 57) := by omega
    simp [HexToDec, hd, h1, h2]
  · intro c h1 h2
    have hd : ¬ (48 ≤ c ∧ c ≤ 57) := by omega
    have hu : ¬ (65 ≤ c ∧ c ≤ 70) := by omega
    simp [HexToDec, hd, hu, h1, h2]
  · intro cb s c rest h1 h11 hd hu hl h0
    have hx : HexToDec c = 120 := by
      simp [HexToDec, hd, hu, hl, INVALID_HEX_CHAR]
    have hs0 : ¬ s.state = 0 := by omega
    have hstep : ihex_step cb s c = .fail s := by
      unfold ihex_step
      rw [csReset_of_ne s hs0,
          if_pos (show 1 ≤ s.state ∧ s.state ≤ 11 from ⟨h1, h11⟩),
          if_pos (show HexToDec c = INVALID_HEX_CHAR by rw [hx]; rfl)]
    simp [ihex_parse, h0, hstep]

/-- Claim C4, witness for the amended theorem at concrete inputs: the
digit `7`, the letter `C`, the letter `q`, and a `\r` fed in the byte-count
state. -/
theorem claim_C4_amended_witness :
    HexToDec 55 = 7 ∧ HexToDec 67 = 12 ∧ HexToDec 113 = 26 ∧
    (ihex_parse cbTrue (ihex_parse cbTrue initState [58]).st [13]).result
      = false := by
  refine ⟨claim_C4_amended.1 55 (by decide) (by decide),
          claim_C4_amended.2.1 67 (by decide) (by decide),
          claim_C4_amended.2.2.1 113 (by decide) (by decide), ?_⟩
  have h := claim_C4_amended.2.2.2 cbTrue (ihex_parse cbTrue initState [58]).st
    13 [] (by decide) (by decide) (by decide) (by decide) (by decide) (by decide)
  exact h

/-- Every reachable session state satisfies the invariant. -/
theorem reachable_inv {s : IhexState} (h : Reachable s) : IhexInv s := by
  induction h with
  | init => exact ihexInv_init
  | reset _ ih => exact ihexInv_reset _ ih
  | @step t t' cb c call _ hstep ih =>
    have hv := ihexInv_step cb t c ih
    rw [hstep] at hv
    exact hv
  | @step_fail t t' cb c _ hstep ih =>
    have hv := ihexInv_step cb t c ih
    rw [hstep] at hv
    exact hv

/-- The state a feed call leaves behind is reachable whenever the starting
state was. -/
theorem reachable_parse (cb : Option (Nat → List Nat → Nat → Bool))
    (l : List Nat) (s : IhexState) (h : Reachable s) :
    Reachable (ihex_parse cb s l).st := by
  induction l generalizing s with
  | nil => simpa [ihex_parse]
  | cons c rest ih =>
    simp only [ihex_parse]
    split
    · simpa
    · cases hstep : ihex_step cb s c with
      | fail s' => simpa using Reachable.step_fail h hstep
      | next s' call => simpa using ih s' (Reachable.step h hstep)

/-- Claim C8: in every reachable DATA state the next payload write index
`data_size_in_nibble >>> 1` (a `uint8_t` in the source) is below
`byte_count`, which is at most 255, so indexing into the
`IHEX_DATA_SIZE`-byte payload buffer stays strictly below its capacity. -/
theorem claim_C8_data_index (s : IhexState) (h : Reachable s)
    (h9 : s.state = 9) :
    s.data_size_in_nibble >>> 1 < s.byte_count ∧ s.byte_count ≤ 255 ∧
    (s.data_size_in_nibble >>> 1) % 256 < IHEX_DATA_SIZE := by
  obtain ⟨h1, _, h3, _⟩ := reachable_inv h
  have hx := h3 h9
  refine ⟨hx, by omega, ?_⟩
  have hmle : (s.data_size_in_nibble >>> 1) % 256 ≤ s.data_size_in_nibble >>> 1 :=
    Nat.mod_le _ _
  simp only [IHEX_DATA_SIZE]
  omega

/-- Claim C8, witness: the state reached after feeding `:01000000` (a data
record header declaring one payload byte) is in the DATA state with its
write index in bounds. -/
theorem claim_C8_witness :
    (ihex_parse cbTrue initState
        [58, 48, 49, 48, 48, 48, 48, 48, 48]).st.data_size_in_nibble >>> 1 <
      (ihex_parse cbTrue initState
        [58, 48, 49, 48, 48, 48, 48, 48, 48]).st.byte_count ∧
    (ihex_parse cbTrue initState
        [58, 48, 49, 48, 48, 48, 48, 48, 48]).st.byte_count ≤ 255 ∧
    ((ihex_parse cbTrue initState
        [58, 48, 49, 48, 48, 48, 48, 48, 48]).st.data_size_in_nibble >>> 1) % 256 <
      IHEX_DATA_SIZE :=
  claim_C8_data_index _ (reachable_parse cbTrue _ _ Reachable.init) (by decide)

/-- Claim C9: in every reachable state the declared byte count fits a
byte, so the `byte_count > IHEX_DATA_SIZE` rejection branch of the
RECORD_TYPE_1 state can never be taken: the comparison is always false. -/
theorem claim_C9_capacity (s : IhexState) (h : Reachable s) :
    s.byte_count ≤ IHEX_DATA_SIZE ∧ ¬ (s.byte_count > IHEX_DATA_SIZE) := by
  obtain ⟨h1, _, _, _⟩ := reachable_inv h
  simp only [IHEX_DATA_SIZE]
  omega

/-- Claim C9, witness: the zero-initialised state. -/
theorem claim_C9_witness :
    initState.byte_count ≤ IHEX_DATA_SIZE ∧
    ¬ (initState.byte_count > IHEX_DATA_SIZE) :=
  claim_C9_capacity initState Reachable.init

/-- Claim C10: in every reachable CHECKSUM_1 state the nibble counter
equals twice the declared byte count, so the byte-count/payload-length
mismatch check `(byte_count << 1) != data_size_in_nibble` never fires:
that rejection branch is dead code. -/
theorem claim_C10_no_mismatch (s : IhexState) (h : Reachable s)
    (h11 : s.state = 11) :
    s.data_size_in_nibble = 2 * s.byte_count ∧
    ¬ (s.byte_count <<< 1 ≠ s.data_size_in_nibble) := by
  obtain ⟨_, _, _, h4⟩ := reachable_inv h
  have hx := h4 (Or.inr h11)
  have hs : s.byte_count <<< 1 = s.byte_count * 2 := by
    simp [Nat.shiftLeft_eq]
  omega

/-- Claim C10, witness: the state reached after feeding `:00000001F`
(an EOF record up to the first checksum digit) is in the CHECKSUM_1 state
and satisfies the equality. -/
theorem claim_C10_witness :
    (ihex_parse cbTrue initState
        [58, 48, 48, 48, 48, 48, 48, 48, 49, 70]).st.data_size_in_nibble =
      2 * (ihex_parse cbTrue initState
        [58, 48, 48, 48, 48, 48, 48, 48, 49, 70]).st.byte_count ∧
    ¬ ((ihex_parse cbTrue initState
        [58, 48, 48, 48, 48, 48, 48, 48, 49, 70]).st.byte_count <<< 1 ≠
      (ihex_parse cbTrue initState
        [58, 48, 48, 48, 48, 48, 48, 48, 49, 70]).st.data_size_in_nibble) :=
  claim_C10_no_mismatch _ (reachable_parse cbTrue _ _ Reachable.init) (by decide)

/-- Outside the CHECKSUM_1 state, one feed step never changes
`address_hi` or `ex_segment_addr_mode`, whether it advances or aborts. -/
theorem step_preserves_addr (cb : Option (Nat → List Nat → Nat → Bool))
    (s : IhexState) (c : Nat) (hne11 : s.state ≠ 11) :
    (stepState (ihex_step cb s c)).address_hi = s.address_hi ∧
    (stepState (ihex_step cb s c)).ex_segment_addr_mode =
      s.ex_segment_addr_mode := by
  have hcases : s.state = 0 ∨ s.state = 1 ∨ s.state = 2 ∨ s.state = 3 ∨
      s.state = 4 ∨ s.state = 5 ∨ s.state = 6 ∨ s.state = 7 ∨ s.state = 8 ∨
      s.state = 9 ∨ s.state = 10 ∨ 12 ≤ s.state := by omega
  rcases hcases with hst|hst|hst|hst|hst|hst|hst|hst|hst|hst|hst|hst
  · -- START state
    unfold ihex_step ihex_switch
    simp only [csReset_state, hst]
    norm_num
    split_ifs <;> constructor <;> simp [stepState, hst, csReset]
  · have hne : s.state ≠ 0 := by omega
    unfold ihex_step
    rw [csReset_of_ne s hne, if_pos (show 1 ≤ s.state ∧ s.state ≤ 11 by omega)]
    by_cases hhex : HexToDec c = INVALID_HEX_CHAR
    · rw [if_pos hhex]
      exact ⟨rfl, rfl⟩
    · rw [if_neg hhex]
      unfold ihex_switch
      simp only [csAccum_state, hst]
      norm_num
      (try split_ifs) <;> constructor <;> simp [stepState]
  · have hne : s.state ≠ 0 := by omega
    unfold ihex_step
    rw [csReset_of_ne s hne, if_pos (show 1 ≤ s.state ∧ s.state ≤ 11 by omega)]
    by_cases hhex : HexToDec c = INVALID_HEX_CHAR
    · rw [if_pos hhex]
      exact ⟨rfl, rfl⟩
    · rw [if_neg hhex]
      unfold ihex_switch
      simp only [csAccum_state, hst]
      norm_num
      (try split_ifs) <;> constructor <;> simp [stepState]
  · have hne : s.state ≠ 0 := by omega
    unfold ihex_step
    rw [csReset_of_ne s hne, if_pos (show 1 ≤ s.state ∧ s.state ≤ 11 by omega)]
    by_cases hhex : HexToDec c = INVALID_HEX_CHAR
    · rw [if_pos hhex]
      exact ⟨rfl, rfl⟩
    · rw [if_neg hhex]
      unfold ihex_switch
      simp only [csAccum_state, hst]
      norm_num
      (try split_ifs) <;> constructor <;> simp [stepState]
  · have hne : s.state ≠ 0 := by omega
    unfold ihex_step
    rw [csReset_of_ne s hne, if_pos (show 1 ≤ s.state ∧ s.state ≤ 11 by omega)]
    by_cases hhex : HexToDec c = INVALID_HEX_CHAR
    · rw [if_pos hhex]
      exact ⟨rfl, rfl⟩
    · rw [if_neg hhex]
      unfold ihex_switch
      simp only [csAccum_state, hst]
      norm_num
      (try split_ifs) <;> constructor <;> simp [stepState]
  · have hne : s.state ≠ 0 := by omega
    unfold ihex_step
    rw [csReset_of_ne s hne, if_pos (show 1 ≤ s.state ∧ s.state ≤ 11 by omega)]
    by_cases hhex : HexToDec c = INVALID_HEX_CHAR
    · rw [if_pos hhex]
      exact ⟨rfl, rfl⟩
    · rw [if_neg hhex]
      unfold ihex_switch
      simp only [csAccum_state, hst]
      norm_num
      (try split_ifs) <;> constructor <;> simp [stepState]
  · have hne : s.state ≠ 0 := by omega
    unfold ihex_step
    rw [csReset_of_ne s hne, if_pos (show 1 ≤ s.state ∧ s.state ≤ 11 by omega)]
    by_cases hhex : HexToDec c = INVALID_HEX_CHAR
    · rw [if_pos hhex]
      exact ⟨rfl, rfl⟩
    · rw [if_neg hhex]
      unfold ihex_switch
      simp only [csAccum_state, hst]
      norm_num
      (try split_ifs) <;> constructor <;> simp [stepState]
  · have hne : s.state ≠ 0 := by omega
    unfold ihex_step
    rw [csReset_of_ne s hne, if_pos (show 1 ≤ s.state ∧ s.state ≤ 11 by omega)]
    by_cases hhex : HexToDec c = INVALID_HEX_CHAR
    · rw [if_pos hhex]
      exact ⟨rfl, rfl⟩
    · rw [if_neg hhex]
      unfold ihex_switch
      simp only [csAccum_state, hst]
      norm_num
      (try split_ifs) <;> constructor <;> simp [stepState]
  · have hne : s.state ≠ 0 := by omega
    unfold ihex_step
    rw [csReset_of_ne s hne, if_pos (show 1 ≤ s.state ∧ s.state ≤ 11 by omega)]
    by_cases hhex : HexToDec c = INVALID_HEX_CHAR
    · rw [if_pos hhex]
      exact ⟨rfl, rfl⟩
    · rw [if_neg hhex]
      unfold ihex_switch
      simp only [csAccum_state, hst]
      norm_num
      (try split_ifs) <;> constructor <;> simp [stepState]
  · have hne : s.state ≠ 0 := by omega
    unfold ihex_step
    rw [csReset_of_ne s hne, if_pos (show 1 ≤ s.state ∧ s.state ≤ 11 by omega)]
    by_cases hhex : HexToDec c = INVALID_HEX_CHAR
    · rw [if_pos hhex]
      exact ⟨rfl, rfl⟩
    · rw [if_neg hhex]
      unfold ihex_switch
      simp only [csAccum_state, hst]
      norm_num
      (try split_ifs) <;> constructor <;> simp [stepState]
  · have hne : s.state ≠ 0 := by omega
    unfold ihex_step
    rw [csReset_of_ne s hne, if_pos (show 1 ≤ s.state ∧ s.state ≤ 11 by omega)]
    by_cases hhex : HexToDec c = INVALID_HEX_CHAR
    · rw [if_pos hhex]
      exact ⟨rfl, rfl⟩
    · rw [if_neg hhex]
      unfold ihex_switch
      simp only [csAccum_state, hst]
      norm_num
      (try split_ifs) <;> constructor <;> simp [stepState]
  · have hne : s.state ≠ 0 := by omega
    unfold ihex_step
    rw [csReset_of_ne s hne,
        if_neg (show ¬ (1 ≤ s.state ∧ s.state ≤ 11) by omega)]
    unfold ihex_switch
    rw [if_neg hne, if_neg (by omega), if_neg (by omega), if_neg (by omega),
        if_neg (by omega), if_neg (by omega), if_neg (by omega),
        if_neg (by omega)]
    exact ⟨rfl, rfl⟩

/-- In the CHECKSUM_1 state the switch either aborts with `address_hi` and
the addressing mode untouched, or completes the record and returns to
START with the extended-address side effect applied. -/
theorem switch11_cases (cb : Option (Nat → List Nat → Nat → Bool))
    (t : IhexState) (c hc : Nat) (hst : t.state = 11) :
    (∃ u, ihex_switch cb t c hc = .fail u ∧ u.address_hi = t.address_hi ∧
          u.ex_segment_addr_mode = t.ex_segment_addr_mode) ∨
    (∃ call, ihex_switch cb t c hc =
        .next { applyAddrUpdate t with state := 0 } call) := by
  unfold ihex_switch
  rw [if_neg (show ¬ t.state = 0 by omega),
      if_neg (show ¬ (t.state = 1 ∨ t.state = 2) by omega),
      if_neg (show ¬ (3 ≤ t.state ∧ t.state ≤ 6) by omega),
      if_neg (show ¬ t.state = 7 by omega),
      if_neg (show ¬ t.state = 8 by omega),
      if_neg (show ¬ t.state = 9 by omega),
      if_neg (show ¬ t.state = 10 by omega),
      if_pos hst]
  split_ifs with hb hcs hrt
  · exact Or.inl ⟨t, rfl, rfl, rfl⟩
  · exact Or.inl ⟨t, rfl, rfl, rfl⟩
  · cases cb with
    | none => exact Or.inr ⟨none, rfl⟩
    | some f =>
      dsimp only
      split_ifs with hf
      · exact Or.inr ⟨_, rfl⟩
      · refine Or.inl ⟨applyAddrUpdate t, rfl, ?_, ?_⟩ <;>
          simp [applyAddrUpdate, hrt]
  · exact Or.inr ⟨none, rfl⟩

/-- Claim C5: the sticky fields `address_hi` and `ex_segment_addr_mode`
are modified only by the successful checksum completion of a type-2 or
type-4 record, where `address_hi` becomes the big-endian 16-bit value of
the first two payload bytes; every other step, including every aborting
step, leaves both unchanged. -/
theorem claim_C5_sticky (cb : Option (Nat → List Nat → Nat → Bool))
    (s : IhexState) (c : Nat) :
    (¬ (s.state = 11 ∧ (s.record_type = 2 ∨ s.record_type = 4)) →
       (stepState (ihex_step cb s c)).address_hi = s.address_hi ∧
       (stepState (ihex_step cb s c)).ex_segment_addr_mode =
         s.ex_segment_addr_mode) ∧
    (∀ s' call, ihex_step cb s c = .next s' call → s.state = 11 →
       s.record_type = 2 →
       s'.address_hi = (s.data.getD 0 0 <<< 8) ||| s.data.getD 1 0 ∧
       s'.ex_segment_addr_mode = true) ∧
    (∀ s' call, ihex_step cb s c = .next s' call → s.state = 11 →
       s.record_type = 4 →
       s'.address_hi = (s.data.getD 0 0 <<< 8) ||| s.data.getD 1 0 ∧
       s'.ex_segment_addr_mode = false) ∧
    (∀ s', ihex_step cb s c = .fail s' →
       s'.address_hi = s.address_hi ∧
       s'.ex_segment_addr_mode = s.ex_segment_addr_mode) := by
  by_cases hst : s.state = 11
  · by_cases hhex : HexToDec c = INVALID_HEX_CHAR
    · have hstep : ihex_step cb s c = .fail s := by
        unfold ihex_step
        rw [csReset_of_ne s (by omega),
            if_pos (show 1 ≤ s.state ∧ s.state ≤ 11 by omega), if_pos hhex]
      refine ⟨fun _ => by rw [hstep]; exact ⟨rfl, rfl⟩, ?_, ?_, ?_⟩
      · intro s' call h _ _; rw [hstep] at h; simp at h
      · intro s' call h _ _; rw [hstep] at h; simp at h
      · intro s' h; rw [hstep] at h
        injection h with he
        subst he
        exact ⟨rfl, rfl⟩
    · have hstep : ihex_step cb s c =
          ihex_switch cb (csAccum s (HexToDec c)) c (HexToDec c) := by
        unfold ihex_step
        rw [csReset_of_ne s (by omega),
            if_pos (show 1 ≤ s.state ∧ s.state ≤ 11 by omega), if_neg hhex]
      rcases switch11_cases cb (csAccum s (HexToDec c)) c (HexToDec c)
          (by simp [hst]) with ⟨u, hu, hhi, hex⟩ | ⟨call, hcall⟩
      · have hstepu : ihex_step cb s c = .fail u := by rw [hstep, hu]
        refine ⟨fun _ => ?_, ?_, ?_, ?_⟩
        · rw [hstepu]; exact ⟨by simpa using hhi, by simpa using hex⟩
        · intro s' call h _ _; rw [hstepu] at h; simp at h
        · intro s' call h _ _; rw [hstepu] at h; simp at h
        · intro s' h; rw [hstepu] at h; injection h with he; subst he
          exact ⟨by simpa using hhi, by simpa using hex⟩
      · have hstepn : ihex_step cb s c =
            .next { applyAddrUpdate (csAccum s (HexToDec c)) with state := 0 }
              call := by rw [hstep, hcall]
        refine ⟨fun hcond => ?_, ?_, ?_, ?_⟩
        · have hrt : ¬ (s.record_type = 2 ∨ s.record_type = 4) :=
            fun hr => hcond ⟨hst, hr⟩
          push_neg at hrt
          rw [hstepn]
          constructor <;> simp [stepState, applyAddrUpdate, hrt.1, hrt.2]
        · intro s' call' h _ hrt2
          rw [hstepn] at h
          injection h with he hceq
          subst he
          constructor <;> simp [applyAddrUpdate, hrt2]
        · intro s' call' h _ hrt4
          rw [hstepn] at h
          injection h with he hceq
          subst he
          constructor <;> simp [applyAddrUpdate, hrt4]
        · intro s' h; rw [hstepn] at h; simp at h
  · have hp := step_preserves_addr cb s c hst
    refine ⟨fun _ => hp, ?_, ?_, ?_⟩
    · intro s' call h h11 _; exact absurd h11 hst
    · intro s' call h h11 _; exact absurd h11 hst
    · intro s' h
      have hq := hp
      rw [h] at hq
      exact hq

/-- Claim C5, witness: a `:` start byte fed in the zero-initialised state
leaves `address_hi` and the addressing mode unchanged. -/
theorem claim_C5_witness :
    (stepState (ihex_step none initState 58)).address_hi =
      initState.address_hi ∧
    (stepState (ihex_step none initState 58)).ex_segment_addr_mode =
      initState.ex_segment_addr_mode :=
  (claim_C5_sticky none initState 58).1 (by decide)

/-- Agreement is reflexive. -/
theorem agreeStates_refl (s : IhexState) : AgreeStates s s :=
  ⟨rfl, rfl, rfl, fun _ =>
    ⟨rfl, rfl, rfl, rfl, rfl, rfl, rfl, fun _ => rfl⟩⟩

/-- Result agreement is reflexive. -/
theorem resAgree_refl (r : StepRes) : ResAgree r r := by
  cases r with
  | next s call => exact ⟨agreeStates_refl s, rfl⟩
  | fail s => trivial

/-- The default branch of the switch: any state beyond CHECKSUM_1 aborts. -/
theorem switch_default (cb : Option (Nat → List Nat → Nat → Bool))
    (u : IhexState) (c hc : Nat) (hbig : 12 ≤ u.state) :
    ihex_switch cb u c hc = .fail u := by
  unfold ihex_switch
  rw [if_neg (show ¬ u.state = 0 by omega),
      if_neg (show ¬ (u.state = 1 ∨ u.state = 2) by omega),
      if_neg (show ¬ (3 ≤ u.state ∧ u.state ≤ 6) by omega),
      if_neg (show ¬ u.state = 7 by omega),
      if_neg (show ¬ u.state = 8 by omega),
      if_neg (show ¬ u.state = 9 by omega),
      if_neg (show ¬ u.state = 10 by omega),
      if_neg (show ¬ u.state = 11 by omega)]

/-- Checksum accumulation sends record-equal states to equal states. -/
theorem csAccum_eq_of_agree {s t : IhexState}
    (hstate : s.state = t.state) (hhi : s.address_hi = t.address_hi)
    (hex : s.ex_segment_addr_mode = t.ex_segment_addr_mode)
    (hbc : s.byte_count = t.byte_count) (hlo : s.address_lo = t.address_lo)
    (hrt : s.record_type = t.record_type) (hdata : s.data = t.data)
    (hnib : s.data_size_in_nibble = t.data_size_in_nibble)
    (hcalc : s.calc_cs = t.calc_cs)
    (htog : s.calc_cs_toogle = t.calc_cs_toogle)
    (htemp : s.calc_cs_toogle = true → s.temp_cs = t.temp_cs) (hc : Nat) :
    csAccum s hc = csAccum t hc := by
  unfold csAccum
  by_cases htv : s.calc_cs_toogle = false
  · rw [if_pos htv, if_pos (htog ▸ htv)]
    cases s; cases t; simp_all
  · rw [if_neg htv, if_neg (htog ▸ htv)]
    have ht : s.temp_cs = t.temp_cs := by
      refine htemp ?_
      revert htv
      cases s.calc_cs_toogle <;> simp
    cases s; cases t; simp_all

/-- A non-hex character in any hex-digit state aborts the step. -/
theorem step_hexfail (cb : Option (Nat → List Nat → Nat → Bool))
    (s : IhexState) (c : Nat) (h1 : 1 ≤ s.state) (h11 : s.state ≤ 11)
    (hhex : HexToDec c = INVALID_HEX_CHAR) : ihex_step cb s c = .fail s := by
  unfold ihex_step
  rw [csReset_of_ne s (by omega), if_pos ⟨h1, h11⟩, if_pos hhex]

/-- A hex character in a hex-digit state accumulates the checksum and
dispatches to the switch. -/
theorem step_hex (cb : Option (Nat → List Nat → Nat → Bool))
    (s : IhexState) (c : Nat) (h1 : 1 ≤ s.state) (h11 : s.state ≤ 11)
    (hhex : HexToDec c ≠ INVALID_HEX_CHAR) :
    ihex_step cb s c =
      ihex_switch cb (csAccum s (HexToDec c)) c (HexToDec c) := by
  unfold ihex_step
  rw [csReset_of_ne s (by omega), if_pos ⟨h1, h11⟩, if_neg hhex]

/-- Any state beyond CHECKSUM_1 aborts the step. -/
theorem step_big (cb : Option (Nat → List Nat → Nat → Bool))
    (s : IhexState) (c : Nat) (hbig : 12 ≤ s.state) :
    ihex_step cb s c = .fail s := by
  unfold ihex_step
  rw [csReset_of_ne s (by omega),
      if_neg (show ¬ (1 ≤ s.state ∧ s.state ≤ 11) by omega),
      switch_default cb s c 0 hbig]

/-- One feed step preserves agreement: indistinguishable states step to
indistinguishable results. -/
theorem step_agree (cb : Option (Nat → List Nat → Nat → Bool)) (c : Nat)
    {s t : IhexState} (h : AgreeStates s t) :
    ResAgree (ihex_step cb s c) (ihex_step cb t c) := by
  obtain ⟨hstate, hhi, hex, hrest⟩ := h
  by_cases hs0 : s.state = 0
  · have ht0 : t.state = 0 := hstate ▸ hs0
    unfold ihex_step
    rw [if_neg (show ¬ (1 ≤ (csReset s).state ∧ (csReset s).state ≤ 11) by
          simp [hs0]),
        if_neg (show ¬ (1 ≤ (csReset t).state ∧ (csReset t).state ≤ 11) by
          simp [ht0])]
    unfold ihex_switch
    rw [if_pos (show (csReset s).state = 0 by simp [hs0]),
        if_pos (show (csReset t).state = 0 by simp [ht0])]
    split_ifs with hcr hcol
    · refine ⟨⟨?_, ?_, ?_, ?_⟩, rfl⟩
      · simpa using hstate
      · simpa using hhi
      · simpa using hex
      · intro hne; simp [hs0] at hne
    · refine ⟨⟨?_, ?_, ?_, ?_⟩, rfl⟩
      · simpa using hstate
      · simpa using hhi
      · simpa using hex
      · intro _
        refine ⟨?_, ?_, ?_, ?_, ?_, ?_, ?_, ?_⟩ <;>
          simp [startRecord, csReset, hs0, ht0]
    · trivial
  · have ht0 : t.state ≠ 0 := hstate ▸ hs0
    obtain ⟨hbc, hlo, hrt, hdata, hnib, hcalc, htog, htemp⟩ := hrest hs0
    by_cases hrange : 1 ≤ s.state ∧ s.state ≤ 11
    · by_cases hhex : HexToDec c = INVALID_HEX_CHAR
      · rw [step_hexfail cb s c hrange.1 hrange.2 hhex,
            step_hexfail cb t c (hstate ▸ hrange.1) (hstate ▸ hrange.2) hhex]
        trivial
      · rw [step_hex cb s c hrange.1 hrange.2 hhex,
            step_hex cb t c (hstate ▸ hrange.1) (hstate ▸ hrange.2) hhex,
            csAccum_eq_of_agree hstate hhi hex hbc hlo hrt hdata hnib hcalc
              htog htemp (HexToDec c)]
        exact resAgree_refl _
    · have hbig : 12 ≤ s.state := by omega
      rw [step_big cb s c hbig, step_big cb t c (hstate ▸ hbig)]
      trivial

/-- Feeding the same bytes to indistinguishable states gives the same
result and the same consumer-invocation trace. -/
theorem parse_agree (cb : Option (Nat → List Nat → Nat → Bool))
    (l : List Nat) : ∀ {s t : IhexState}, AgreeStates s t →
    (ihex_parse cb s l).result = (ihex_parse cb t l).result ∧
    (ihex_parse cb s l).calls = (ihex_parse cb t l).calls := by
  induction l with
  | nil => intro s t _; exact ⟨rfl, rfl⟩
  | cons c rest ih =>
    intro s t h
    simp only [ihex_parse]
    by_cases hc0 : c = 0
    · simp [hc0]
    · simp only [hc0, if_false]
      have hag := step_agree cb c h
      cases hs : ihex_step cb s c with
      | fail s' =>
        cases ht : ihex_step cb t c with
        | fail t' => exact ⟨rfl, rfl⟩
        | next t' callt => rw [hs, ht] at hag; exact hag.elim
      | next s' calls =>
        cases ht : ihex_step cb t c with
        | fail t' => rw [hs, ht] at hag; exact hag.elim
        | next t' callt =>
          rw [hs, ht] at hag
          obtain ⟨hag', hcall⟩ := hag
          have hih := ih hag'
          simp [hcall, hih.1, hih.2]

/-- Claim C6: feeding a stream that decodes successfully from a reset
state, resetting, and feeding the same stream again succeeds again and
invokes the consumer with exactly the same sequence of arguments. -/
theorem claim_C6_reset_replay (cb : Option (Nat → List Nat → Nat → Bool))
    (s0 : IhexState) (stream : List Nat)
    (hvalid : (ihex_parse cb (ihex_reset_state s0) stream).result = true) :
    (ihex_parse cb
        (ihex_reset_state
          (ihex_parse cb (ihex_reset_state s0) stream).st) stream).result =
      true ∧
    (ihex_parse cb
        (ihex_reset_state
          (ihex_parse cb (ihex_reset_state s0) stream).st) stream).calls =
      (ihex_parse cb (ihex_reset_state s0) stream).calls := by
  have hag : AgreeStates
      (ihex_reset_state (ihex_parse cb (ihex_reset_state s0) stream).st)
      (ihex_reset_state s0) :=
    ⟨rfl, rfl, rfl, fun hne => (hne rfl).elim⟩
  have hpa := parse_agree cb stream hag
  exact ⟨by rw [hpa.1, hvalid], hpa.2⟩

/-- Claim C6, witness: the two-record stream of a type-4 extended-address
record followed by a data record, decoded twice around a reset, invokes
the consumer identically. -/
theorem claim_C6_witness :
    (ihex_parse cbTrue
        (ihex_reset_state
          (ihex_parse cbTrue (ihex_reset_state initState)
            (recT4 ++ recD)).st) (recT4 ++ recD)).result = true ∧
    (ihex_parse cbTrue
        (ihex_reset_state
          (ihex_parse cbTrue (ihex_reset_state initState)
            (recT4 ++ recD)).st) (recT4 ++ recD)).calls =
      (ihex_parse cbTrue (ihex_reset_state initState) (recT4 ++ recD)).calls :=
  claim_C6_reset_replay cbTrue initState (recT4 ++ recD) (by decide)

/-- Unfolding of the encoder on a cons cell. -/
theorem encBytes_cons (x : Nat) (l : List Nat) :
    encBytes (x :: l) = encByte x ++ encBytes l := by
  simp [encBytes]

/-- Unfolding of the encoder on an append. -/
theorem encBytes_append (l1 l2 : List Nat) :
    encBytes (l1 ++ l2) = encBytes l1 ++ encBytes l2 := by
  simp [encBytes]

/-- The encoder is empty on the empty list. -/
theorem encBytes_nil : encBytes [] = [] := rfl

/-- Decoding inverts the uppercase hex digit encoding of a nibble. -/
theorem HexToDec_hexDigit (n : Nat) (h : n < 16) :
    HexToDec (hexDigit n) = n := by
  unfold hexDigit HexToDec
  by_cases h1 : n < 10
  · rw [if_pos h1, if_pos (show 48 ≤ 48 + n ∧ 48 + n ≤ 57 by omega)]
    omega
  · rw [if_neg h1,
        if_neg (show ¬ (48 ≤ 55 + n ∧ 55 + n ≤ 57) by omega),
        if_pos (show 65 ≤ 55 + n ∧ 55 + n ≤ 70 by omega)]
    omega

/-- Hex digit characters are never the NUL sentinel. -/
theorem hexDigit_ne_zero (n : Nat) : hexDigit n ≠ 0 := by
  unfold hexDigit; split_ifs <;> omega

/-- A valid nibble value is not the invalid-character sentinel. -/
theorem hexDigit_valid (n : Nat) (h : n < 16) :
    HexToDec (hexDigit n) ≠ INVALID_HEX_CHAR := by
  rw [HexToDec_hexDigit n h]
  unfold INVALID_HEX_CHAR
  omega

/-- Recombining the two nibbles of a byte: the C expression
`(hi << 4) | lo` with `lo < 16` is plain arithmetic. -/
theorem or16 (x y : Nat) (hy : y < 16) : (x <<< 4) ||| y = 16 * x + y := by
  apply Nat.eq_of_testBit_eq
  intro i
  rw [Nat.testBit_lor, Nat.testBit_shiftLeft,
      Nat.testBit_mul_pow_two_add x (show y < 2 ^ 4 from hy) i]
  by_cases h : i < 4
  · simp [h, show ¬ i ≥ 4 by omega]
  · have h16 : (16 : Nat) ≤ 2 ^ i := by
      calc (16 : Nat) = 2 ^ 4 := by norm_num
        _ ≤ 2 ^ i := Nat.pow_le_pow_right (by norm_num) (by omega)
    have hyf : y.testBit i = false :=
      Nat.testBit_eq_false_of_lt (lt_of_lt_of_le hy h16)
    simp [h, show i ≥ 4 by omega, hyf]

/-- Splitting a byte and recombining its nibbles gives the byte back. -/
theorem or16_div_mod (b : Nat) : ((b / 16) <<< 4) ||| (b % 16) = b := by
  rw [or16 _ _ (Nat.mod_lt _ (by norm_num))]
  omega

/-- A step that advances without invoking the consumer is transparent to
the feed. -/
theorem parse_cons_none (cb : Option (Nat → List Nat → Nat → Bool))
    (s : IhexState) (c : Nat) (rest : List Nat) (s' : IhexState)
    (hc0 : c ≠ 0) (hstep : ihex_step cb s c = .next s' none) :
    ihex_parse cb s (c :: rest) = ihex_parse cb s' rest := by
  simp [ihex_parse, hc0, hstep]

/-- A failing step makes the whole feed return false. -/
theorem parse_cons_fail (cb : Option (Nat → List Nat → Nat → Bool))
    (s : IhexState) (c : Nat) (rest : List Nat) (s' : IhexState)
    (hc0 : c ≠ 0) (hstep : ihex_step cb s c = .fail s') :
    (ihex_parse cb s (c :: rest)).result = false := by
  simp [ihex_parse, hc0, hstep]

/-- Checksum accumulation with no buffered nibble: buffer the high one. -/
theorem csAccum_of_false {s : IhexState} (h : s.calc_cs_toogle = false)
    (hc : Nat) :
    csAccum s hc = { s with temp_cs := hc, calc_cs_toogle := true } := by
  unfold csAccum; rw [if_pos h]

/-- Checksum accumulation with a buffered nibble: fold the byte in. -/
theorem csAccum_of_true {s : IhexState} (h : s.calc_cs_toogle = true)
    (hc : Nat) :
    csAccum s hc =
      { s with calc_cs := (s.calc_cs + ((s.temp_cs <<< 4) ||| hc)) % 256,
               calc_cs_toogle := false } := by
  unfold csAccum; rw [if_neg (by simp [h])]

/-- The BYTE_COUNT states shift the nibble into the declared count. -/
theorem switch_bc (cb : Option (Nat → List Nat → Nat → Bool))
    (t : IhexState) (c hc : Nat) (h : t.state = 1 ∨ t.state = 2) :
    ihex_switch cb t c hc =
      .next { t with byte_count := ((t.byte_count <<< 4) ||| hc) % 256,
                     state := t.state + 1 } none := by
  unfold ihex_switch
  rw [if_neg (show ¬ t.state = 0 by omega), if_pos h]

/-- The ADDR states shift the nibble into the 16-bit address field. -/
theorem switch_addr (cb : Option (Nat → List Nat → Nat → Bool))
    (t : IhexState) (c hc : Nat) (h : 3 ≤ t.state ∧ t.state ≤ 6) :
    ihex_switch cb t c hc =
      .next { t with address_lo := ((t.address_lo <<< 4) ||| hc) % 65536,
                     state := t.state + 1 } none := by
  unfold ihex_switch
  rw [if_neg (show ¬ t.state = 0 by omega),
      if_neg (show ¬ (t.state = 1 ∨ t.state = 2) by omega), if_pos h]

/-- The first record-type nibble must be zero. -/
theorem switch_rt0 (cb : Option (Nat → List Nat → Nat → Bool))
    (t : IhexState) (c hc : Nat) (h : t.state = 7) (hh : hc = 0) :
    ihex_switch cb t c hc = .next { t with state := t.state + 1 } none := by
  unfold ihex_switch
  rw [if_neg (show ¬ t.state = 0 by omega),
      if_neg (show ¬ (t.state = 1 ∨ t.state = 2) by omega),
      if_neg (show ¬ (3 ≤ t.state ∧ t.state ≤ 6) by omega), if_pos h,
      if_neg (show ¬ hc ≠ 0 by simp [hh])]

/-- The second record-type nibble with a nonzero in-capacity byte count
enters the DATA state. -/
theorem switch_rt1_pos (cb : Option (Nat → List Nat → Nat → Bool))
    (t : IhexState) (c hc : Nat) (h : t.state = 8) (hh : hc ≤ 5 ∨ hc = 14)
    (hbc : t.byte_count ≠ 0) (hcap : ¬ t.byte_count > IHEX_DATA_SIZE) :
    ihex_switch cb t c hc =
      .next { t with record_type := hc, state := t.state + 1 } none := by
  unfold ihex_switch
  rw [if_neg (show ¬ t.state = 0 by omega),
      if_neg (show ¬ (t.state = 1 ∨ t.state = 2) by omega),
      if_neg (show ¬ (3 ≤ t.state ∧ t.state ≤ 6) by omega),
      if_neg (show ¬ t.state = 7 by omega), if_pos h,
      if_neg (not_not_intro hh), if_neg hbc, if_neg hcap]

/-- The second record-type nibble with a zero byte count skips DATA and
goes straight to CHECKSUM_0. -/
theorem switch_rt1_zero (cb : Option (Nat → List Nat → Nat → Bool))
    (t : IhexState) (c hc : Nat) (h : t.state = 8) (hh : hc ≤ 5 ∨ hc = 14)
    (hbc : t.byte_count = 0) :
    ihex_switch cb t c hc =
      .next { t with record_type := hc, state := 10 } none := by
  unfold ihex_switch
  rw [if_neg (show ¬ t.state = 0 by omega),
      if_neg (show ¬ (t.state = 1 ∨ t.state = 2) by omega),
      if_neg (show ¬ (3 ≤ t.state ∧ t.state ≤ 6) by omega),
      if_neg (show ¬ t.state = 7 by omega), if_pos h,
      if_neg (not_not_intro hh), if_pos hbc]

/-- A DATA nibble that does not yet complete the payload. -/
theorem switch_data_cont (cb : Option (Nat → List Nat → Nat → Bool))
    (t : IhexState) (c hc : Nat) (h : t.state = 9)
    (hlt : (t.data_size_in_nibble + 1) >>> 1 < t.byte_count) :
    ihex_switch cb t c hc = .next (writeData t hc) none := by
  unfold ihex_switch
  rw [if_neg (show ¬ t.state = 0 by omega),
      if_neg (show ¬ (t.state = 1 ∨ t.state = 2) by omega),
      if_neg (show ¬ (3 ≤ t.state ∧ t.state ≤ 6) by omega),
      if_neg (show ¬ t.state = 7 by omega),
      if_neg (show ¬ t.state = 8 by omega), if_pos h,
      if_neg (show ¬ ((writeData t hc).data_size_in_nibble >>> 1 ≥
        (writeData t hc).byte_count) by
          simp only [writeData_nibble, writeData_byte_count]; omega)]

/-- The DATA nibble that completes the payload advances to CHECKSUM_0. -/
theorem switch_data_exit (cb : Option (Nat → List Nat → Nat → Bool))
    (t : IhexState) (c hc : Nat) (h : t.state = 9)
    (hge : (t.data_size_in_nibble + 1) >>> 1 ≥ t.byte_count) :
    ihex_switch cb t c hc =
      .next { writeData t hc with state := t.state + 1 } none := by
  unfold ihex_switch
  rw [if_neg (show ¬ t.state = 0 by omega),
      if_neg (show ¬ (t.state = 1 ∨ t.state = 2) by omega),
      if_neg (show ¬ (3 ≤ t.state ∧ t.state ≤ 6) by omega),
      if_neg (show ¬ t.state = 7 by omega),
      if_neg (show ¬ t.state = 8 by omega), if_pos h,
      if_pos (show (writeData t hc).data_size_in_nibble >>> 1 ≥
        (writeData t hc).byte_count by
          simp only [writeData_nibble, writeData_byte_count]; omega)]

/-- CHECKSUM_0 just advances. -/
theorem switch_cs0 (cb : Option (Nat → List Nat → Nat → Bool))
    (t : IhexState) (c hc : Nat) (h : t.state = 10) :
    ihex_switch cb t c hc = .next { t with state := t.state + 1 } none := by
  unfold ihex_switch
  rw [if_neg (show ¬ t.state = 0 by omega),
      if_neg (show ¬ (t.state = 1 ∨ t.state = 2) by omega),
      if_neg (show ¬ (3 ≤ t.state ∧ t.state ≤ 6) by omega),
      if_neg (show ¬ t.state = 7 by omega),
      if_neg (show ¬ t.state = 8 by omega),
      if_neg (show ¬ t.state = 9 by omega), if_pos h]

/-- CHECKSUM_1 with a matching byte count but a nonzero running checksum
rejects the record. -/
theorem switch_cs1_reject (cb : Option (Nat → List Nat → Nat → Bool))
    (t : IhexState) (c hc : Nat) (h : t.state = 11)
    (hb : t.byte_count <<< 1 = t.data_size_in_nibble)
    (hcs : t.calc_cs ≠ 0) :
    ihex_switch cb t c hc = .fail t := by
  unfold ihex_switch
  rw [if_neg (show ¬ t.state = 0 by omega),
      if_neg (show ¬ (t.state = 1 ∨ t.state = 2) by omega),
      if_neg (show ¬ (3 ≤ t.state ∧ t.state ≤ 6) by omega),
      if_neg (show ¬ t.state = 7 by omega),
      if_neg (show ¬ t.state = 8 by omega),
      if_neg (show ¬ t.state = 9 by omega),
      if_neg (show ¬ t.state = 10 by omega), if_pos h,
      if_neg (not_not_intro hb), if_pos hcs]

/-- Feeding the two hex characters of the byte-count field from the
BYTE_COUNT_0 state: the byte count becomes the encoded byte, the byte is
folded into the running checksum, and the machine reaches ADDR_0. -/
theorem parse_pair_bc (cb : Option (Nat → List Nat → Nat → Bool))
    (s : IhexState) (rest : List Nat) (b : Nat)
    (hs : s.state = 1) (htg : s.calc_cs_toogle = false)
    (hbc0 : s.byte_count = 0) (hb : b < 256) :
    ihex_parse cb s (encByte b ++ rest) =
      ihex_parse cb
        { s with temp_cs := b / 16, calc_cs := (s.calc_cs + b) % 256,
                 calc_cs_toogle := false, byte_count := b, state := 3 } rest := by
  have hx1 : HexToDec (hexDigit (b / 16)) = b / 16 :=
    HexToDec_hexDigit _ (by omega)
  have hx2 : HexToDec (hexDigit (b % 16)) = b % 16 :=
    HexToDec_hexDigit _ (by omega)
  have hstep1 : ihex_step cb s (hexDigit (b / 16)) =
      .next { s with temp_cs := b / 16, calc_cs_toogle := true,
                     byte_count := b / 16, state := 2 } none := by
    rw [step_hex cb s _ (by omega) (by omega)
          (by rw [hx1]; unfold INVALID_HEX_CHAR; omega),
        hx1, csAccum_of_false htg,
        switch_bc _ _ _ _ (Or.inl (show IhexState.state _ = 1 by simp [hs]))]
    congr 1
    simp [hs, hbc0, Nat.zero_shiftLeft]
    omega
  have hstep2 : ihex_step cb
      { s with temp_cs := b / 16, calc_cs_toogle := true,
               byte_count := b / 16, state := 2 } (hexDigit (b % 16)) =
      .next { s with temp_cs := b / 16, calc_cs := (s.calc_cs + b) % 256,
                     calc_cs_toogle := false, byte_count := b, state := 3 }
        none := by
    rw [step_hex cb _ _ (by norm_num) (by norm_num)
          (by rw [hx2]; unfold INVALID_HEX_CHAR; omega),
        hx2, csAccum_of_true (by norm_num),
        switch_bc _ _ _ _ (Or.inr (by simp))]
    congr 1
    simp [or16_div_mod, Nat.mod_eq_of_lt hb]
  rw [show encByte b ++ rest = hexDigit (b / 16) :: hexDigit (b % 16) :: rest
        from rfl,
      parse_cons_none cb s _ _ _ (hexDigit_ne_zero _) hstep1,
      parse_cons_none cb _ _ _ _ (hexDigit_ne_zero _) hstep2]

@[simp] theorem writeData_temp_cs (s : IhexState) (hc : Nat) :
    (writeData s hc).temp_cs = s.temp_cs := rfl

@[simp] theorem writeData_calc_cs (s : IhexState) (hc : Nat) :
    (writeData s hc).calc_cs = s.calc_cs := rfl

@[simp] theorem writeData_toogle (s : IhexState) (hc : Nat) :
    (writeData s hc).calc_cs_toogle = s.calc_cs_toogle := rfl

/-- The accumulator toggles the nibble phase every character. -/
theorem csAccum_toogle (s : IhexState) (hc : Nat) :
    (csAccum s hc).calc_cs_toogle = !s.calc_cs_toogle := by
  unfold csAccum
  split_ifs with h <;> simp_all <;>
    (revert h; cases s.calc_cs_toogle <;> simp)

/-- With a buffered high nibble, accumulation folds the byte in. -/
theorem csAccum_calc_of_true {s : IhexState} (h : s.calc_cs_toogle = true)
    (hc : Nat) :
    (csAccum s hc).calc_cs =
      (s.calc_cs + ((s.temp_cs <<< 4) ||| hc)) % 256 := by
  rw [csAccum_of_true h]

/-- Feeding the hex encoding of a nonempty payload from the DATA state
with an even nibble count and exactly the declared number of bytes left:
the machine lands in CHECKSUM_0 with the payload bytes folded into the
running checksum. -/
theorem parse_data_phase (cb : Option (Nat → List Nat → Nat → Bool))
    (payload : List Nat) :
    ∀ (s : IhexState) (rest : List Nat), s.state = 9 →
      s.calc_cs_toogle = false →
      (∀ b ∈ payload, b < 256) →
      s.data_size_in_nibble % 2 = 0 →
      s.data_size_in_nibble + 2 * payload.length = 2 * s.byte_count →
      payload ≠ [] →
      ∃ s', ihex_parse cb s (encBytes payload ++ rest) =
          ihex_parse cb s' rest ∧
        s'.state = 10 ∧ s'.calc_cs_toogle = false ∧
        s'.byte_count = s.byte_count ∧
        s'.data_size_in_nibble = s.data_size_in_nibble + 2 * payload.length ∧
        s'.calc_cs = (s.calc_cs + payload.sum) % 256 := by
  induction payload with
  | nil => intro s rest _ _ _ _ _ hne; exact absurd rfl hne
  | cons b tail ih =>
    intro s rest hs htg hpb heven hnib hne
    simp only [List.length_cons] at hnib
    have hb : b < 256 := hpb b (by simp)
    have hx1 : HexToDec (hexDigit (b / 16)) = b / 16 :=
      HexToDec_hexDigit _ (by omega)
    have hx2 : HexToDec (hexDigit (b % 16)) = b % 16 :=
      HexToDec_hexDigit _ (by omega)
    have hstep1 : ihex_step cb s (hexDigit (b / 16)) =
        .next (writeData { s with temp_cs := b / 16, calc_cs_toogle := true }
          (b / 16)) none := by
      rw [step_hex cb s _ (by omega) (by omega)
            (by rw [hx1]; unfold INVALID_HEX_CHAR; omega),
          hx1, csAccum_of_false htg,
          switch_data_cont _ _ _ _ (by simp [hs])
            (by show (s.data_size_in_nibble + 1) >>> 1 < s.byte_count
                rw [Nat.shiftRight_one]
                omega)]
    have hS1tog :
        (writeData { s with temp_cs := b / 16, calc_cs_toogle := true }
          (b / 16)).calc_cs_toogle = true := by simp
    have hS1state :
        (writeData { s with temp_cs := b / 16, calc_cs_toogle := true }
          (b / 16)).state = 9 := by simp [hs]
    have hS1nib :
        (writeData { s with temp_cs := b / 16, calc_cs_toogle := true }
          (b / 16)).data_size_in_nibble = s.data_size_in_nibble + 1 := by simp
    have hcalcT :
        (csAccum (writeData { s with temp_cs := b / 16, calc_cs_toogle := true }
          (b / 16)) (b % 16)).calc_cs = (s.calc_cs + b) % 256 := by
      rw [csAccum_calc_of_true hS1tog]
      simp [or16_div_mod]
    have hTtog :
        (csAccum (writeData { s with temp_cs := b / 16, calc_cs_toogle := true }
          (b / 16)) (b % 16)).calc_cs_toogle = false := by
      rw [csAccum_toogle, hS1tog]
      rfl
    by_cases htail : tail = []
    · -- the byte completes the payload
      subst htail
      simp only [List.length_nil] at hnib
      have hstep2 : ihex_step cb
          (writeData { s with temp_cs := b / 16, calc_cs_toogle := true }
            (b / 16)) (hexDigit (b % 16)) =
          .next { writeData
              (csAccum (writeData
                { s with temp_cs := b / 16, calc_cs_toogle := true } (b / 16))
                (b % 16)) (b % 16) with
            state := (csAccum (writeData
              { s with temp_cs := b / 16, calc_cs_toogle := true } (b / 16))
              (b % 16)).state + 1 } none := by
        rw [step_hex cb _ _ (by omega) (by omega)
              (by rw [hx2]; unfold INVALID_HEX_CHAR; omega),
            hx2,
            switch_data_exit _ _ _ _ (by simp [hs])
              (by show (s.data_size_in_nibble + 1 + 1) >>> 1 ≥ s.byte_count
                  rw [Nat.shiftRight_one]
                  omega)]
      refine ⟨{ writeData
          (csAccum (writeData
            { s with temp_cs := b / 16, calc_cs_toogle := true } (b / 16))
            (b % 16)) (b % 16) with
        state := (csAccum (writeData
          { s with temp_cs := b / 16, calc_cs_toogle := true } (b / 16))
          (b % 16)).state + 1 }, ?_, ?_, ?_, ?_, ?_, ?_⟩
      · rw [encBytes_cons, encBytes_nil, List.append_nil,
            show encByte b ++ rest =
              hexDigit (b / 16) :: hexDigit (b % 16) :: rest from rfl,
            parse_cons_none cb s _ _ _ (hexDigit_ne_zero _) hstep1,
            parse_cons_none cb _ _ _ _ (hexDigit_ne_zero _) hstep2]
      · simp [hs]
      · simp [hTtog]
      · simp
      · simp [List.length_cons]
      · simp [hcalcT, List.sum_cons]
    · -- more payload bytes follow
      have hstep2 : ihex_step cb
          (writeData { s with temp_cs := b / 16, calc_cs_toogle := true }
            (b / 16)) (hexDigit (b % 16)) =
          .next (writeData
            (csAccum (writeData
              { s with temp_cs := b / 16, calc_cs_toogle := true } (b / 16))
              (b % 16)) (b % 16)) none := by
        rw [step_hex cb _ _ (by omega) (by omega)
              (by rw [hx2]; unfold INVALID_HEX_CHAR; omega),
            hx2,
            switch_data_cont _ _ _ _ (by simp [hs])
              (by show (s.data_size_in_nibble + 1 + 1) >>> 1 < s.byte_count
                  rw [Nat.shiftRight_one]
                  have hlen : tail.length ≠ 0 := by
                    intro hclash
                    exact htail (List.eq_nil_of_length_eq_zero hclash)
                  omega)]
      obtain ⟨s', heq, hst', htg', hbc', hnib', hcalc'⟩ :=
        ih (writeData
            (csAccum (writeData
              { s with temp_cs := b / 16, calc_cs_toogle := true } (b / 16))
              (b % 16)) (b % 16)) rest
          (by simp [hs]) (by simp [hTtog]) (fun x hx => hpb x (by simp [hx]))
          (by simp; omega) (by simp; omega) htail
      refine ⟨s', ?_, hst', htg', ?_, ?_, ?_⟩
      · rw [encBytes_cons, List.append_assoc,
            show encByte b ++ (encBytes tail ++ rest) =
              hexDigit (b / 16) :: hexDigit (b % 16) ::
                (encBytes tail ++ rest) from rfl,
            parse_cons_none cb s _ _ _ (hexDigit_ne_zero _) hstep1,
            parse_cons_none cb _ _ _ _ (hexDigit_ne_zero _) hstep2, heq]
      · simpa using hbc'
      · simp only [writeData_nibble, csAccum_nibble] at hnib'
        simp only [hnib', List.length_cons]
        omega
      · rw [hcalc', writeData_calc_cs, hcalcT, List.sum_cons]
        omega

@[simp] theorem startRecord_address_lo (s : IhexState) :
    (startRecord s).address_lo = 0 := rfl

@[simp] theorem startRecord_calc_cs (s : IhexState) :
    (startRecord s).calc_cs = s.calc_cs := rfl

@[simp] theorem startRecord_toogle (s : IhexState) :
    (startRecord s).calc_cs_toogle = s.calc_cs_toogle := rfl

@[simp] theorem startRecord_data (s : IhexState) :
    (startRecord s).data = List.replicate IHEX_DATA_SIZE 0 := rfl

/-- The checksum pre-block reset written out, in the START state. -/
theorem csReset_of_eq {s : IhexState} (h : s.state = 0) :
    csReset s = { s with calc_cs := 0, calc_cs_toogle := false } := by
  unfold csReset; rw [if_pos h]

/-- A `:` start code opens a fresh record. -/
theorem step_start_colon (cb : Option (Nat → List Nat → Nat → Bool))
    (s : IhexState) (hs : s.state = 0) :
    ihex_step cb s 58 = .next (startRecord (csReset s)) none := by
  unfold ihex_step
  rw [if_neg (show ¬ (1 ≤ (csReset s).state ∧ (csReset s).state ≤ 11) by
        simp [hs])]
  unfold ihex_switch
  rw [if_pos (show (csReset s).state = 0 by simp [hs]),
      if_neg (show ¬ ((58 : Nat) = 13 ∨ (58 : Nat) = 10) by norm_num),
      if_pos rfl]

/-- Feeding the two hex characters of one address byte from ADDR_0 or
ADDR_2: the byte is shifted into `address_lo` and folded into the
checksum, and the machine advances two states. -/
theorem parse_pair_addr (cb : Option (Nat → List Nat → Nat → Bool))
    (s : IhexState) (rest : List Nat) (b : Nat)
    (hs : s.state = 3 ∨ s.state = 5) (htg : s.calc_cs_toogle = false)
    (hb : b < 256) :
    ihex_parse cb s (encByte b ++ rest) =
      ihex_parse cb
        { s with temp_cs := b / 16, calc_cs := (s.calc_cs + b) % 256,
                 calc_cs_toogle := false,
                 address_lo :=
                   (((((s.address_lo <<< 4) ||| b / 16) % 65536) <<< 4) |||
                     b % 16) % 65536,
                 state := s.state + 2 } rest := by
  have hx1 : HexToDec (hexDigit (b / 16)) = b / 16 :=
    HexToDec_hexDigit _ (by omega)
  have hx2 : HexToDec (hexDigit (b % 16)) = b % 16 :=
    HexToDec_hexDigit _ (by omega)
  have hstep1 : ihex_step cb s (hexDigit (b / 16)) =
      .next { s with temp_cs := b / 16, calc_cs_toogle := true,
                     address_lo := ((s.address_lo <<< 4) ||| b / 16) % 65536,
                     state := s.state + 1 } none := by
    rw [step_hex cb s _ (by omega) (by omega)
          (by rw [hx1]; unfold INVALID_HEX_CHAR; omega),
        hx1, csAccum_of_false htg,
        switch_addr _ _ _ _ (by show 3 ≤ s.state ∧ s.state ≤ 6; omega)]
  have hstep2 : ihex_step cb
      { s with temp_cs := b / 16, calc_cs_toogle := true,
               address_lo := ((s.address_lo <<< 4) ||| b / 16) % 65536,
               state := s.state + 1 } (hexDigit (b % 16)) =
      .next { s with temp_cs := b / 16, calc_cs := (s.calc_cs + b) % 256,
                     calc_cs_toogle := false,
                     address_lo :=
                       (((((s.address_lo <<< 4) ||| b / 16) % 65536) <<< 4) |||
                         b % 16) % 65536,
                     state := s.state + 2 } none := by
    rw [step_hex cb _ _ (by show 1 ≤ s.state + 1; omega)
          (by show s.state + 1 ≤ 11; omega)
          (by rw [hx2]; unfold INVALID_HEX_CHAR; omega),
        hx2, csAccum_of_true rfl,
        switch_addr _ _ _ _ (by show 3 ≤ s.state + 1 ∧ s.state + 1 ≤ 6; omega)]
    congr 1
    simp only [IhexState.mk.injEq, or16_div_mod, eq_self_iff_true, and_true,
      true_and, and_self]
  rw [show encByte b ++ rest =
        hexDigit (b / 16) :: hexDigit (b % 16) :: rest from rfl,
      parse_cons_none cb s _ _ _ (hexDigit_ne_zero _) hstep1,
      parse_cons_none cb _ _ _ _ (hexDigit_ne_zero _) hstep2]

/-- Feeding the record-type field `enc t` with `t ≤ 5` and a nonzero
in-capacity byte count: the machine records the type and enters DATA. -/
theorem parse_pair_type_pos (cb : Option (Nat → List Nat → Nat → Bool))
    (s : IhexState) (rest : List Nat) (t : Nat)
    (hs : s.state = 7) (htg : s.calc_cs_toogle = false) (ht : t ≤ 5)
    (hbc : s.byte_count ≠ 0) (hcap : s.byte_count ≤ 255) :
    ihex_parse cb s (encByte t ++ rest) =
      ihex_parse cb
        { s with temp_cs := 0, calc_cs := (s.calc_cs + t) % 256,
                 calc_cs_toogle := false, record_type := t,
                 state := 9 } rest := by
  have ht16 : t / 16 = 0 := by omega
  have htm : t % 16 = t := Nat.mod_eq_of_lt (by omega)
  have hx1 : HexToDec (hexDigit (t / 16)) = 0 := by
    rw [HexToDec_hexDigit _ (by omega), ht16]
  have hx2 : HexToDec (hexDigit (t % 16)) = t := by
    rw [HexToDec_hexDigit _ (by omega), htm]
  have hstep1 : ihex_step cb s (hexDigit (t / 16)) =
      .next { s with temp_cs := 0, calc_cs_toogle := true,
                     state := s.state + 1 } none := by
    rw [step_hex cb s _ (by omega) (by omega)
          (by rw [hx1]; unfold INVALID_HEX_CHAR; omega),
        hx1, csAccum_of_false htg,
        switch_rt0 _ _ _ _ (by show s.state = 7; exact hs) rfl]
  have hstep2 : ihex_step cb
      { s with temp_cs := 0, calc_cs_toogle := true, state := s.state + 1 }
      (hexDigit (t % 16)) =
      .next { s with temp_cs := 0, calc_cs := (s.calc_cs + t) % 256,
                     calc_cs_toogle := false, record_type := t,
                     state := 9 } none := by
    rw [step_hex cb _ _ (by show 1 ≤ s.state + 1; omega)
          (by show s.state + 1 ≤ 11; omega)
          (by rw [hx2]; unfold INVALID_HEX_CHAR; omega),
        hx2, csAccum_of_true rfl,
        switch_rt1_pos _ _ _ _ (by show s.state + 1 = 8; omega) (Or.inl ht)
          (by show s.byte_count ≠ 0; exact hbc)
          (by show ¬ s.byte_count > IHEX_DATA_SIZE
              unfold IHEX_DATA_SIZE; omega)]
    congr 1
    simp [hs, or16 _ _ (show t < 16 by omega)]
  rw [show encByte t ++ rest =
        hexDigit (t / 16) :: hexDigit (t % 16) :: rest from rfl,
      parse_cons_none cb s _ _ _ (hexDigit_ne_zero _) hstep1,
      parse_cons_none cb _ _ _ _ (hexDigit_ne_zero _) hstep2]

/-- Feeding the record-type field `enc t` with `t ≤ 5` and a zero byte
count: DATA is skipped entirely and the machine enters CHECKSUM_0. -/
theorem parse_pair_type_zero (cb : Option (Nat → List Nat → Nat → Bool))
    (s : IhexState) (rest : List Nat) (t : Nat)
    (hs : s.state = 7) (htg : s.calc_cs_toogle = false) (ht : t ≤ 5)
    (hbc : s.byte_count = 0) :
    ihex_parse cb s (encByte t ++ rest) =
      ihex_parse cb
        { s with temp_cs := 0, calc_cs := (s.calc_cs + t) % 256,
                 calc_cs_toogle := false, record_type := t,
                 state := 10 } rest := by
  have ht16 : t / 16 = 0 := by omega
  have htm : t % 16 = t := Nat.mod_eq_of_lt (by omega)
  have hx1 : HexToDec (hexDigit (t / 16)) = 0 := by
    rw [HexToDec_hexDigit _ (by omega), ht16]
  have hx2 : HexToDec (hexDigit (t % 16)) = t := by
    rw [HexToDec_hexDigit _ (by omega), htm]
  have hstep1 : ihex_step cb s (hexDigit (t / 16)) =
      .next { s with temp_cs := 0, calc_cs_toogle := true,
                     state := s.state + 1 } none := by
    rw [step_hex cb s _ (by omega) (by omega)
          (by rw [hx1]; unfold INVALID_HEX_CHAR; omega),
        hx1, csAccum_of_false htg,
        switch_rt0 _ _ _ _ (by show s.state = 7; exact hs) rfl]
  have hstep2 : ihex_step cb
      { s with temp_cs := 0, calc_cs_toogle := true, state := s.state + 1 }
      (hexDigit (t % 16)) =
      .next { s with temp_cs := 0, calc_cs := (s.calc_cs + t) % 256,
                     calc_cs_toogle := false, record_type := t,
                     state := 10 } none := by
    rw [step_hex cb _ _ (by show 1 ≤ s.state + 1; omega)
          (by show s.state + 1 ≤ 11; omega)
          (by rw [hx2]; unfold INVALID_HEX_CHAR; omega),
        hx2, csAccum_of_true rfl,
        switch_rt1_zero _ _ _ _ (by show s.state + 1 = 8; omega) (Or.inl ht)
          (by show s.byte_count = 0; exact hbc)]
    congr 1
    simp [or16 _ _ (show t < 16 by omega)]
  rw [show encByte t ++ rest =
        hexDigit (t / 16) :: hexDigit (t % 16) :: rest from rfl,
      parse_cons_none cb s _ _ _ (hexDigit_ne_zero _) hstep1,
      parse_cons_none cb _ _ _ _ (hexDigit_ne_zero _) hstep2]

/-- Feeding the checksum field from CHECKSUM_0 with a complete payload:
if the record bytes do not sum to zero modulo 256, the feed fails. -/
theorem parse_cs_reject (cb : Option (Nat → List Nat → Nat → Bool))
    (s : IhexState) (rest : List Nat) (csb : Nat)
    (hs : s.state = 10) (htg : s.calc_cs_toogle = false)
    (hnib : s.data_size_in_nibble = 2 * s.byte_count) (hcs : csb < 256)
    (hbad : (s.calc_cs + csb) % 256 ≠ 0) :
    (ihex_parse cb s (encByte csb ++ rest)).result = false := by
  have hx1 : HexToDec (hexDigit (csb / 16)) = csb / 16 :=
    HexToDec_hexDigit _ (by omega)
  have hx2 : HexToDec (hexDigit (csb % 16)) = csb % 16 :=
    HexToDec_hexDigit _ (by omega)
  have hstep1 : ihex_step cb s (hexDigit (csb / 16)) =
      .next { s with temp_cs := csb / 16, calc_cs_toogle := true,
                     state := s.state + 1 } none := by
    rw [step_hex cb s _ (by omega) (by omega)
          (by rw [hx1]; unfold INVALID_HEX_CHAR; omega),
        hx1, csAccum_of_false htg,
        switch_cs0 _ _ _ _ (by show s.state = 10; exact hs)]
  have hcalc2 : (csAccum
      { s with temp_cs := csb / 16, calc_cs_toogle := true,
               state := s.state + 1 } (csb % 16)).calc_cs =
      (s.calc_cs + csb) % 256 := by
    rw [csAccum_calc_of_true rfl]
    simp [or16_div_mod]
  have hstep2 : ihex_step cb
      { s with temp_cs := csb / 16, calc_cs_toogle := true,
               state := s.state + 1 } (hexDigit (csb % 16)) =
      .fail (csAccum
        { s with temp_cs := csb / 16, calc_cs_toogle := true,
                 state := s.state + 1 } (csb % 16)) := by
    rw [step_hex cb _ _ (by show 1 ≤ s.state + 1; omega)
          (by show s.state + 1 ≤ 11; omega)
          (by rw [hx2]; unfold INVALID_HEX_CHAR; omega),
        hx2,
        switch_cs1_reject _ _ _ _
          (by simp [hs])
          (by simp only [csAccum_byte_count, csAccum_nibble]
              show s.byte_count <<< 1 = s.data_size_in_nibble
              rw [Nat.shiftLeft_eq]
              omega)
          (by rw [hcalc2]; exact hbad)]
  rw [show encByte csb ++ rest =
        hexDigit (csb / 16) :: hexDigit (csb % 16) :: rest from rfl,
      parse_cons_none cb s _ _ _ (hexDigit_ne_zero _) hstep1]
  exact parse_cons_fail cb _ _ _ _ (hexDigit_ne_zero _) hstep2

/-- Fused DATA-plus-checksum rejection: from the DATA state with exactly
the declared payload left, a checksum byte that does not cancel the
running sum makes the feed fail. -/
theorem parse_data_cs_reject (cb : Option (Nat → List Nat → Nat → Bool))
    (payload : List Nat) (s : IhexState) (rest : List Nat) (csb : Nat)
    (hs : s.state = 9) (htg : s.calc_cs_toogle = false)
    (hpb : ∀ b ∈ payload, b < 256)
    (heven : s.data_size_in_nibble % 2 = 0)
    (hnib : s.data_size_in_nibble + 2 * payload.length = 2 * s.byte_count)
    (hne : payload ≠ []) (hcsb : csb < 256)
    (hbad : (s.calc_cs + payload.sum + csb) % 256 ≠ 0) :
    (ihex_parse cb s (encBytes payload ++ (encByte csb ++ rest))).result =
      false := by
  obtain ⟨s', heq, h10, htg', hbc', hnib', hcalc'⟩ :=
    parse_data_phase cb payload s (encByte csb ++ rest) hs htg hpb heven
      hnib hne
  rw [heq]
  refine parse_cs_reject cb s' rest csb h10 htg' ?_ hcsb ?_
  · omega
  · rw [hcalc']
    omega

/-- Fused DATA-plus-terminator rejection: from the DATA state with
exactly the declared payload left, a non-hex byte right after the payload
(where the checksum is expected) makes the feed fail. -/
theorem parse_data_then_nonhex (cb : Option (Nat → List Nat → Nat → Bool))
    (payload : List Nat) (s : IhexState) (rest : List Nat) (c : Nat)
    (hs : s.state = 9) (htg : s.calc_cs_toogle = false)
    (hpb : ∀ b ∈ payload, b < 256)
    (heven : s.data_size_in_nibble % 2 = 0)
    (hnib : s.data_size_in_nibble + 2 * payload.length = 2 * s.byte_count)
    (hne : payload ≠ []) (hc0 : c ≠ 0)
    (hhex : HexToDec c = INVALID_HEX_CHAR) :
    (ihex_parse cb s (encBytes payload ++ (c :: rest))).result = false := by
  obtain ⟨s', heq, h10, htg', hbc', hnib', hcalc'⟩ :=
    parse_data_phase cb payload s (c :: rest) hs htg hpb heven hnib hne
  rw [heq]
  exact parse_cons_fail cb s' c rest _ hc0
    (step_hexfail cb s' c (by omega) (by omega) hhex)

/-- Claim C2: a record whose decoded bytes (count, address, type, payload
and checksum byte) do not sum to zero modulo 256 makes the feed return
false when its checksum completes, whatever follows; in particular the
valid data record `:01002000558A` with its payload byte flipped to `0x56`
is rejected. -/
theorem claim_C2_checksum :
    (∀ (cb : Option (Nat → List Nat → Nat → Bool)) (s : IhexState)
       (rest : List Nat) (bc ah al t csb : Nat) (payload : List Nat),
       s.state = 0 → bc < 256 → ah < 256 → al < 256 → t ≤ 5 →
       payload.length = bc → (∀ b ∈ payload, b < 256) → csb < 256 →
       (bc + ah + al + t + payload.sum + csb) % 256 ≠ 0 →
       (ihex_parse cb s
         (encRecord (bc :: ah :: al :: t :: (payload ++ [csb])) ++
           rest)).result = false) ∧
    (ihex_parse cbTrue initState recDflip).result = false := by
  constructor
  · intro cb s rest bc ah al t csb payload hs hbc hah hal ht hlen hpb hcsb hsum
    rw [show encRecord (bc :: ah :: al :: t :: (payload ++ [csb])) ++ rest =
          58 :: (encByte bc ++ (encByte ah ++ (encByte al ++ (encByte t ++
            (encBytes payload ++ (encByte csb ++ rest)))))) from by
        simp [encRecord, encBytes_cons, encBytes_append, encBytes_nil]]
    rw [parse_cons_none cb s 58 _ _ (by norm_num)
          (step_start_colon cb s hs), csReset_of_eq hs]
    rw [parse_pair_bc cb _ _ bc (by show s.state + 1 = 1; omega) rfl rfl hbc]
    rw [parse_pair_addr cb _ _ ah (Or.inl rfl) rfl hah]
    rw [parse_pair_addr cb _ _ al (Or.inr rfl) rfl hal]
    by_cases hbc0 : bc = 0
    · have hpl : payload = [] := List.eq_nil_of_length_eq_zero (by omega)
      rw [parse_pair_type_zero cb _ _ t rfl rfl ht
            (by show bc = 0; exact hbc0)]
      rw [hpl, encBytes_nil, List.nil_append]
      refine parse_cs_reject cb _ rest csb rfl rfl ?_ hcsb ?_
      · show (0 : Nat) = 2 * bc
        omega
      · show ((((((0 + bc) % 256 + ah) % 256 + al) % 256 + t) % 256 + csb)
          % 256 ≠ 0)
        simp only [hpl, List.sum_nil] at hsum
        omega
    · rw [parse_pair_type_pos cb _ _ t rfl rfl ht
            (by show bc ≠ 0; exact hbc0) (by show bc ≤ 255; omega)]
      refine parse_data_cs_reject cb payload _ rest csb rfl rfl hpb
          (by show (0 : Nat) % 2 = 0; rfl)
          (by show 0 + 2 * payload.length = 2 * bc; omega)
          (by intro hh
              rw [hh] at hlen
              simp at hlen
              exact hbc0 hlen.symm)
          hcsb ?_
      show (((((((0 + bc) % 256 + ah) % 256 + al) % 256 + t) % 256) +
        payload.sum + csb) % 256 ≠ 0)
      omega
  · decide

/-- Claim C2, witness for the general part: a one-byte data record whose
checksum byte is zeroed fails. -/
theorem claim_C2_witness :
    (ihex_parse cbTrue initState
      (encRecord (1 :: 0 :: 0 :: 0 :: ([85] ++ [0])) ++ [])).result
      = false :=
  claim_C2_checksum.1 cbTrue initState [] 1 0 0 0 0 [85] rfl (by decide)
    (by decide) (by decide) (by decide) (by decide) (by decide) (by decide)
    (by decide)

/-- Claim C7: a record that declares byte count 4 but carries only three
payload byte-pairs before its checksum field and line terminator is
rejected: the DATA state consumes the checksum pair as payload, and the
terminator is hit where a checksum hex digit is required. -/
theorem claim_C7_short_record (cb : Option (Nat → List Nat → Nat → Bool))
    (s : IhexState) (rest : List Nat) (ah al t csb : Nat)
    (payload : List Nat) (hs : s.state = 0) (hah : ah < 256)
    (hal : al < 256) (ht : t ≤ 5) (hlen : payload.length = 3)
    (hpb : ∀ b ∈ payload, b < 256) (hcsb : csb < 256) :
    (ihex_parse cb s
      (encRecord (4 :: ah :: al :: t :: (payload ++ [csb])) ++
        13 :: rest)).result = false := by
  rw [show encRecord (4 :: ah :: al :: t :: (payload ++ [csb])) ++ 13 :: rest =
        58 :: (encByte 4 ++ (encByte ah ++ (encByte al ++ (encByte t ++
          (encBytes (payload ++ [csb]) ++ (13 :: rest)))))) from by
      simp [encRecord, encBytes_cons, encBytes_append, encBytes_nil]]
  rw [parse_cons_none cb s 58 _ _ (by norm_num)
        (step_start_colon cb s hs), csReset_of_eq hs]
  rw [parse_pair_bc cb _ _ 4 (by show s.state + 1 = 1; omega) rfl rfl
        (by norm_num)]
  rw [parse_pair_addr cb _ _ ah (Or.inl rfl) rfl hah]
  rw [parse_pair_addr cb _ _ al (Or.inr rfl) rfl hal]
  rw [parse_pair_type_pos cb _ _ t rfl rfl ht (by norm_num) (by norm_num)]
  exact parse_data_then_nonhex cb (payload ++ [csb]) _ rest 13 rfl rfl
    (by intro x hx
        rcases List.mem_append.1 hx with hx | hx
        · exact hpb x hx
        · simp at hx
          omega)
    (by show (0 : Nat) % 2 = 0; rfl)
    (by show 0 + 2 * (payload ++ [csb]).length = 2 * 4
        simp [hlen])
    (by simp) (by norm_num) (by decide)

/-- Claim C7, witness: the concrete short record `:04000000` + three
payload bytes + a checksum byte + carriage return is rejected. -/
theorem claim_C7_witness :
    (ihex_parse cbTrue initState
      (encRecord (4 :: 0 :: 0 :: 0 :: ([1, 2, 3] ++ [0])) ++
        13 :: [])).result = false :=
  claim_C7_short_record cbTrue initState [] 0 0 0 0 [1, 2, 3] rfl
    (by decide) (by decide) (by decide) (by decide) (by decide) (by decide)
